import Mathlib

/-!
# EOS signal PDFs: the registry of `eos/signal-pdf.cc`

A shallow embedding of `eos/signal-pdf.cc`: the test density `test::Legendre1DPDF`,
the binder `make_signal_pdf`, the catalog `make_signal_pdf_entries`, the lookup
`SignalPDF::make` and the enumeration `SignalPDFs::begin()/end()`; and of
`eos/form-factors/parametric-aegjkvd2023.hh` and `.cc`: the unitarity bound and the form
factors `AEGJKvD2023FormFactors<PToP>` and `AEGJKvD2023FormFactors<VacuumToPP>`.

Numbers: the C++ `double` arithmetic is embedded over an arbitrary field `α`; it is
evaluated at `ℚ` and stated at `ℝ`. Rounding is not part of the embedding.
-/

namespace eos

/-! ## Collaborators that `signal-pdf.cc` only includes -/

/-- Errors raised by the subsystem and by its collaborators. -/
inductive Exception where
  | UnknownKinematicVariable (name : String)
  | InternalError (message : String)
  | Other (message : String)
deriving DecidableEq, Repr

/-- Modelled from the spec: the class `Options` of `eos/utils/options.hh`, which is not
among the sources: "a mapping from option key to string value, with a defined merge
operation (later layer overrides earlier)". The entries are kept as a list of
(key, value) pairs that is read from the front. -/
structure Options where
  entries : List (String × String)
deriving DecidableEq, Repr

namespace Options

/-- The value stored under `key`, if any. -/
def get (o : Options) (key : String) : Option String :=
  o.entries.lookup key

/-- Whether `key` is defined. -/
def has (o : Options) (key : String) : Bool :=
  (o.get key).isSome

/-- Modelled from the spec: `operator+` of `Options`, which is not among the sources:
"Each layer overwrites same-keyed values from the previous layer; non-conflicting keys
from all layers are present in the result." The right operand is the later layer. -/
def merge (lower upper : Options) : Options :=
  ⟨upper.entries ++ lower.entries.filter (fun e => !upper.has e.1)⟩

instance : Add Options := ⟨merge⟩

end Options

/-- Modelled from the spec: the class `Parameters` of `eos/utils/parameters.hh`, which
is not among the sources: it "supplies named physical constants by string key". -/
structure Parameters (α : Type) where
  values : List (String × α)

/-- Modelled from the spec: the class `Kinematics` of `eos/utils/kinematic.hh`, which
is not among the sources: "a mapping from kinematic-variable name to current numeric
value, settable/gettable by name at evaluation time". -/
structure Kinematics (α : Type) where
  values : List (String × α)

namespace Kinematics

/-- Modelled from the spec: get-by-name, "failing distinctly when absent" with
`UnknownKinematicVariable`. -/
def get {α : Type} (k : Kinematics α) (name : String) : Except Exception α :=
  match k.values.lookup name with
  | some v => .ok v
  | none => .error (.UnknownKinematicVariable name)

/-- Modelled from the spec: set-by-name; the new value shadows any earlier one. -/
def set {α : Type} (k : Kinematics α) (name : String) (value : α) : Kinematics α :=
  ⟨(name, value) :: k.values⟩

end Kinematics

/-- Modelled from the spec: `power_of<n>` of `eos/maths/power-of.hh`, which is not
among the sources; the spec writes `power_of<2>(x)` as `x²` and `power_of<3>(x)` as
`x³`. -/
def power_of {α : Type} [Field α] (n : Nat) (x : α) : α := x ^ n

/-! ## `test::Legendre1DPDF` -/

namespace test

/-- The class `test::Legendre1DPDF`; its constructor ignores both arguments and the
class has no data members. -/
structure Legendre1DPDF where
  mk ::
deriving DecidableEq, Repr

namespace Legendre1DPDF

/-- The constructor `Legendre1DPDF(const Parameters &, const Options &)`. -/
def new {α : Type} (_p : Parameters α) (_o : Options) : Except Exception Legendre1DPDF :=
  .ok ⟨⟩

/-- The member `Legendre1DPDF::pdf`. -/
def pdf {α : Type} [Field α] (_self : Legendre1DPDF) (z : α) : α :=
  (9.0 + 8.0 * z + 9.0 * z * z)

/-- The member `Legendre1DPDF::norm`. -/
def norm {α : Type} [Field α] (_self : Legendre1DPDF) (z_min z_max : α) : α :=
  (9.0 * (z_max - z_min) + 4.0 * (power_of 2 z_max - power_of 2 z_min)
    + 3.0 * (power_of 3 z_max - power_of 3 z_min))

/-- The static member `Legendre1DPDF::description`. -/
def description : String := "1D PDF up to 2nd order in z; used for unit tests only."

end Legendre1DPDF

end test

/-! ## Names, ranges and the generic binder -/

/-- Modelled from the spec: the class `QualifiedName` of `eos/utils/qualified-name.hh`,
which is not among the sources: a "structured string identifier (namespace + name +
embedded options) used as a registry key". `str` is the identifier text
`namespace::name@suffix`, `options` the option set embedded in the name. Parsing and
validation of raw text are not part of the embedding. -/
structure QualifiedName where
  str : String
  options : Options
deriving DecidableEq, Repr

namespace QualifiedName

/-- Modelled from the spec: the constructor `QualifiedName(const char *)` on a text
without an option clause, as in every registration of `make_signal_pdf_entries`: the
embedded option set is empty. -/
def ofString (name : String) : QualifiedName := ⟨name, ⟨[]⟩⟩

/-- Modelled from the spec: `operator<` of `QualifiedName`, the "map's natural key
order". The spec fixes no more than that this is the order of the registry keys and that
"the Options embedded in the looked-up QualifiedName" are layer (b) of the merge for the
entry that the lookup finds; the order is therefore taken on the identifier text, and the
embedded options are not part of the key. -/
def lt (a b : QualifiedName) : Bool := decide (a.str < b.str)

end QualifiedName

/-- The aggregate `KinematicRange{ name, min, max, description }`, declared in
`eos/utils/kinematic.hh`. -/
structure KinematicRange (α : Type) where
  name : String
  min : α
  max : α
  description : String

/-- The type `double (const double &, ..., const double &)` of a function of `k`
numeric arguments. -/
def NAry (α : Type) : Nat → Type
  | 0 => α
  | k + 1 => α → NAry α k

/-- A decay model class as the binder sees it: the type of its instances and its
constructor from `(Parameters, Options)`. -/
structure DecayClass (α : Type) where
  Instance : Type
  construct : Parameters α → Options → Except Exception Instance

/-- The physics models, their description strings and the constant `M_PI`, which
`signal-pdf.cc` takes from headers that are not among the sources. A model class is
addressed by its C++ name, a member function by class, name and arity. -/
structure Collaborators (α : Type) where
  M_PI : α
  decay : String → DecayClass α
  member : (cls : String) → (fn : String) → (k : Nat) → (decay cls).Instance → NAry α k
  description : (cls : String) → (field : String) → String
  IntermediateResult : Type
  prepare : (decay "BToKstarDilepton").Instance → α → α → IntermediateResult
  integrated_decay_width : (decay "BToKstarDilepton").Instance → IntermediateResult → α

/-- The class `test::Legendre1DPDF` as a decay model class. -/
def test.Legendre1DPDF.cls (α : Type) : DecayClass α :=
  ⟨test.Legendre1DPDF, test.Legendre1DPDF.new⟩

/-- Modelled from the spec: the Density of `eos/utils/density.hh` and
`eos/utils/concrete-signal-pdf.hh`, which are not among the sources: it "exposes both
raw evaluators". The kinematics bag is a shared reference in C++; here each evaluator
takes the current contents of the bag. -/
structure SignalPDF (α : Type) where
  evaluate : Kinematics α → Except Exception α
  normalization : Kinematics α → Except Exception α

/-- Modelled from the spec: the entry built by `make_concrete_signal_pdf_entry` of
`eos/utils/concrete-signal-pdf.hh`, which is not among the sources. It "owns the
declared metadata" and "stores the two function references and the two name lists as
type-erased callables whose only remaining free parameters are the untyped kinematics
lookups" (`pdf_call`, `norm_call`). -/
structure SignalPDFEntry (α : Type) where
  name : QualifiedName
  default_options : Options
  Decay : DecayClass α
  pdf_arity : Nat
  pdf_function : Decay.Instance → NAry α pdf_arity
  pdf_kinematic_ranges : List (KinematicRange α)
  norm_arity : Nat
  norm_function : Decay.Instance → NAry α norm_arity
  norm_kinematic_names : List String
  pdf_call : Decay.Instance → Kinematics α → Except Exception α
  norm_call : Decay.Instance → Kinematics α → Except Exception α

/-- Modelled from the spec: the evaluation of a bound function in
`eos/utils/concrete-signal-pdf.hh`: "for each of the declared names, in declared order,
fetch the current numeric value from the Kinematics bag by name. Fails with
`UnknownKinematicVariable` if a declared name is absent from the bag at call time.
Forward the fetched values positionally (order-preserving) to the bound function". -/
def bind_kinematics {α β : Type} (nameOf : β → String) :
    (declared : List β) → NAry α declared.length → Kinematics α → Except Exception α
  | [], f, _ => .ok f
  | d :: ds, f, kinematics =>
    match kinematics.get (nameOf d) with
    | .error e => .error e
    | .ok v => bind_kinematics nameOf ds (f v) kinematics

/-- Modelled from the spec: `make_concrete_signal_pdf_entry` of
`eos/utils/concrete-signal-pdf.hh`, which is not among the sources. The two proofs are
the arity equalities that the callers assert statically. -/
def make_concrete_signal_pdf_entry {α : Type} (D : DecayClass α) (k m : Nat)
    (qn : QualifiedName) (default_options : Options)
    (pdf_function : D.Instance → NAry α k)
    (pdf_kinematic_ranges : List (KinematicRange α))
    (norm_function : D.Instance → NAry α m)
    (norm_kinematic_names : List String)
    (hpdf : k = pdf_kinematic_ranges.length)
    (hnorm : m = norm_kinematic_names.length) : SignalPDFEntry α where
  name := qn
  default_options := default_options
  Decay := D
  pdf_arity := k
  pdf_function := pdf_function
  pdf_kinematic_ranges := pdf_kinematic_ranges
  norm_arity := m
  norm_function := norm_function
  norm_kinematic_names := norm_kinematic_names
  pdf_call := fun decay kinematics =>
    bind_kinematics KinematicRange.name pdf_kinematic_ranges
      (hpdf ▸ pdf_function decay) kinematics
  norm_call := fun decay kinematics =>
    bind_kinematics id norm_kinematic_names (hnorm ▸ norm_function decay) kinematics

/-- Modelled from the spec: `ConcreteSignalPDFEntry::make` of
`eos/utils/concrete-signal-pdf.hh`, which is not among the sources: it "constructs one
model instance with `(parameters, options)`", the registration defaults being the lowest
layer of the merge, and "returns a Density that closes over that instance, the live
Kinematics bag reference, and the two ordered name lists". -/
def SignalPDFEntry.make {α : Type} (e : SignalPDFEntry α) (parameters : Parameters α)
    (_kinematics : Kinematics α) (options : Options) : Except Exception (SignalPDF α) :=
  match e.Decay.construct parameters (e.default_options + options) with
  | .error err => .error err
  | .ok decay => .ok ⟨e.pdf_call decay, e.norm_call decay⟩

/-- The first overload of `make_signal_pdf` (both bound functions are member
functions). `k` and `m` are the sizes of the packs `PDFArgs_` and `NormArgs_`; `hpdf`
and `hnorm` are the two `static_assert`s. -/
def make_signal_pdf {α : Type} (D : DecayClass α) (k m : Nat) (name : String)
    (default_options : Options)
    (pdf : D.Instance → NAry α k)
    (pdf_kinematic_ranges : List (KinematicRange α))
    (norm : D.Instance → NAry α m)
    (norm_kinematic_names : List String)
    (hpdf : k = pdf_kinematic_ranges.length)
    (hnorm : m = norm_kinematic_names.length) : QualifiedName × SignalPDFEntry α :=
  let qn := QualifiedName.ofString name
  let pdf_function := pdf
  let norm_function := norm
  let entry_ptr := make_concrete_signal_pdf_entry D k m qn default_options pdf_function
    pdf_kinematic_ranges norm_function norm_kinematic_names hpdf hnorm
  (qn, entry_ptr)

/-- The second overload of `make_signal_pdf` (the normalization is a
`std::function`). -/
def make_signal_pdf_function {α : Type} (D : DecayClass α) (k m : Nat) (name : String)
    (default_options : Options)
    (pdf : D.Instance → NAry α k)
    (pdf_kinematic_ranges : List (KinematicRange α))
    (norm_function : D.Instance → NAry α m)
    (norm_kinematic_names : List String)
    (hpdf : k = pdf_kinematic_ranges.length)
    (hnorm : m = norm_kinematic_names.length) : QualifiedName × SignalPDFEntry α :=
  let qn := QualifiedName.ofString name
  let pdf_function := pdf
  let entry_ptr := make_concrete_signal_pdf_entry D k m qn default_options pdf_function
    pdf_kinematic_ranges norm_function norm_kinematic_names hpdf hnorm
  (qn, entry_ptr)

/-! ## `std::map` -/

namespace StdMap

universe u

/-- The unique-key insertion of `std::map`, on the in-order sequence of the map's
elements: the new pair goes before the first larger key, and is dropped when an
equivalent key (neither smaller nor larger) is already present. -/
def insert {K : Type} {V : Type u} (less : K → K → Bool) (kv : K × V) : List (K × V) → List (K × V)
  | [] => [kv]
  | x :: xs =>
    if less kv.1 x.1 then kv :: x :: xs
    else if less x.1 kv.1 then x :: insert less kv xs
    else x :: xs

/-- The constructor of `std::map` from a braced initializer list: the pairs are
inserted one by one, in the order of the list. -/
def ofList {K : Type} {V : Type u} (less : K → K → Bool) (init : List (K × V)) : List (K × V) :=
  init.foldl (fun m kv => insert less kv m) []

/-- The member `std::map::find`: the element whose key is equivalent to `k`, or
`end()` (here `none`). -/
def find {K : Type} {V : Type u} (less : K → K → Bool) (k : K) (m : List (K × V)) : Option (K × V) :=
  m.find? (fun x => !less x.1 k && !less k x.1)

end StdMap

/-! ## The catalog and the lookup -/

/-- The braced initializer list of `signal_pdf_entries` in `make_signal_pdf_entries`,
in source order. -/
def signal_pdf_registrations {α : Type} [Field α] (c : Collaborators α) :
    List (QualifiedName × SignalPDFEntry α) :=
  [
    make_signal_pdf (test.Legendre1DPDF.cls α) 1 2 "Test::Legendre1D"
      ⟨[]⟩
      test.Legendre1DPDF.pdf
      [⟨"z", -1.0, 1.0, ""⟩]
      test.Legendre1DPDF.norm
      ["z_min", "z_max"]
      rfl rfl,
    make_signal_pdf (c.decay "BToThreeLeptonsNeutrino") 5 4 "B_u->enumumu::d^5Gamma"
      ⟨[("l", "e"), ("lprime", "mu")]⟩
      (c.member "BToThreeLeptonsNeutrino" "quintuple_differential_branching_ratio" 5)
      [⟨"q2", 0.0447, 27.8714, (c.description "BToThreeLeptonsNeutrino" "kinematics_description_q2")⟩,
       ⟨"k2", 0.00051, 25.6849, (c.description "BToThreeLeptonsNeutrino" "kinematics_description_k2")⟩,
       ⟨"z_gamma", -1.0, 1.0, (c.description "BToThreeLeptonsNeutrino" "kinematics_description_z_gamma")⟩,
       ⟨"z_w", -1.0, 1.0, (c.description "BToThreeLeptonsNeutrino" "kinematics_description_z_w")⟩,
       ⟨"phi", -c.M_PI, c.M_PI, (c.description "BToThreeLeptonsNeutrino" "kinematics_description_phi")⟩]
      (c.member "BToThreeLeptonsNeutrino" "integrated_branching_ratio" 4)
      ["q2_min", "q2_max", "k2_min", "k2_max"]
      rfl rfl,
    make_signal_pdf (c.decay "BToThreeLeptonsNeutrino") 5 4 "B_u->munuee::d^5Gamma"
      ⟨[("l", "mu"), ("lprime", "e")]⟩
      (c.member "BToThreeLeptonsNeutrino" "quintuple_differential_branching_ratio" 5)
      [⟨"q2", 1.0e-6, 26.767, (c.description "BToThreeLeptonsNeutrino" "kinematics_description_q2")⟩,
       ⟨"k2", 0.011, 27.8606, (c.description "BToThreeLeptonsNeutrino" "kinematics_description_k2")⟩,
       ⟨"z_gamma", -1.0, 1.0, (c.description "BToThreeLeptonsNeutrino" "kinematics_description_z_gamma")⟩,
       ⟨"z_w", -1.0, 1.0, (c.description "BToThreeLeptonsNeutrino" "kinematics_description_z_w")⟩,
       ⟨"phi", -c.M_PI, c.M_PI, (c.description "BToThreeLeptonsNeutrino" "kinematics_description_phi")⟩]
      (c.member "BToThreeLeptonsNeutrino" "integrated_branching_ratio" 4)
      ["q2_min", "q2_max", "k2_min", "k2_max"]
      rfl rfl,
    make_signal_pdf (c.decay "BToPiPiLeptonNeutrino") 3 6 "B->pipimunu::d^3Gamma@QCDF"
      ⟨[]⟩
      (c.member "BToPiPiLeptonNeutrino" "triple_differential_branching_ratio" 3)
      [⟨"q2", 0.01, 0.93859, (c.description "BToPiPiLeptonNeutrino" "kinematics_description_q2")⟩,
       ⟨"k2", 18.582, 27.872, (c.description "BToPiPiLeptonNeutrino" "kinematics_description_k2")⟩,
       ⟨"cos(theta)", -1.0, 1.0, (c.description "BToPiPiLeptonNeutrino" "kinematics_description_z")⟩]
      (c.member "BToPiPiLeptonNeutrino" "integrated_branching_ratio" 6)
      ["q2_min", "q2_max", "k2_min", "k2_max", "cos(theta)_min", "cos(theta)_max"]
      rfl rfl,
    make_signal_pdf (c.decay "BToPseudoscalarLeptonNeutrino") 1 2 "B->pilnu::dGamma/dq2"
      ⟨[("U", "u"), ("I", "1")]⟩
      (c.member "BToPseudoscalarLeptonNeutrino" "differential_branching_ratio" 1)
      [⟨"q2", 0.0, 26.41, (c.description "BToPseudoscalarLeptonNeutrino" "kinematics_description_q2")⟩]
      (c.member "BToPseudoscalarLeptonNeutrino" "integrated_branching_ratio" 2)
      ["q2_min", "q2_max"]
      rfl rfl,
    make_signal_pdf (c.decay "BToPseudoscalarLeptonNeutrino") 2 2 "B->pilnu::d^2Gamma/dq2/dcos(theta_l)"
      ⟨[("U", "u"), ("I", "1")]⟩
      (c.member "BToPseudoscalarLeptonNeutrino" "normalized_two_differential_decay_width" 2)
      [⟨"q2", 0.0, 26.41, (c.description "BToPseudoscalarLeptonNeutrino" "kinematics_description_q2")⟩,
       ⟨"cos(theta_l)", -1.0, 1.0, (c.description "BToPseudoscalarLeptonNeutrino" "kinematics_description_c_theta_l")⟩]
      (c.member "BToPseudoscalarLeptonNeutrino" "normalized_integrated_decay_width" 2)
      ["q2_min", "q2_max"]
      rfl rfl,
    make_signal_pdf (c.decay "BToGammaLeptonNeutrino") 2 1 "B->gammalnu::d^2Gamma/dEgamma/dcos(theta_l)"
      ⟨[]⟩
      (c.member "BToGammaLeptonNeutrino" "fully_differential_decay_width" 2)
      [⟨"Egamma", 0.1, 2.64, (c.description "BToGammaLeptonNeutrino" "kinematics_description_Egamma")⟩,
       ⟨"cos(theta_l)", -1.0, 1.0, (c.description "BToGammaLeptonNeutrino" "kinematics_description_c_theta_l")⟩]
      (c.member "BToGammaLeptonNeutrino" "integrated_branching_ratio" 1)
      ["E_gamma_min"]
      rfl rfl,
    make_signal_pdf (c.decay "BToPseudoscalarLeptonNeutrino") 1 2 "B->Dlnu::dGamma/dq2"
      ⟨[("U", "c"), ("I", "1/2")]⟩
      (c.member "BToPseudoscalarLeptonNeutrino" "differential_branching_ratio" 1)
      [⟨"q2", 0.0, 11.62, (c.description "BToPseudoscalarLeptonNeutrino" "kinematics_description_q2")⟩]
      (c.member "BToPseudoscalarLeptonNeutrino" "integrated_branching_ratio" 2)
      ["q2_min", "q2_max"]
      rfl rfl,
    make_signal_pdf (c.decay "BToPseudoscalarLeptonNeutrino") 2 2 "B->Dlnu::d^2Gamma/dq2/dcos(theta_l)"
      ⟨[("U", "c"), ("I", "1/2")]⟩
      (c.member "BToPseudoscalarLeptonNeutrino" "normalized_two_differential_decay_width" 2)
      [⟨"q2", 0.0, 11.62, (c.description "BToPseudoscalarLeptonNeutrino" "kinematics_description_q2")⟩,
       ⟨"cos(theta_l)", -1.0, 1.0, (c.description "BToPseudoscalarLeptonNeutrino" "kinematics_description_c_theta_l")⟩]
      (c.member "BToPseudoscalarLeptonNeutrino" "normalized_integrated_decay_width" 2)
      ["q2_min", "q2_max"]
      rfl rfl,
    make_signal_pdf (c.decay "BToVectorLeptonNeutrino") 1 2 "B->D^*lnu::dBR"
      ⟨[("U", "c"), ("I", "1/2")]⟩
      (c.member "BToVectorLeptonNeutrino" "differential_branching_ratio" 1)
      [⟨"q2", 0.0, 10.68, (c.description "BToVectorLeptonNeutrino" "kinematics_description_q2")⟩]
      (c.member "BToVectorLeptonNeutrino" "integrated_branching_ratio" 2)
      ["q2_min", "q2_max"]
      rfl rfl,
    make_signal_pdf (c.decay "BToVectorLeptonNeutrino") 4 2 "B->D^*lnu::d^4Gamma"
      ⟨[("U", "c"), ("I", "1/2")]⟩
      (c.member "BToVectorLeptonNeutrino" "normalized_four_differential_decay_width" 4)
      [⟨"q2", 0.0, 10.68, (c.description "BToVectorLeptonNeutrino" "kinematics_description_q2")⟩,
       ⟨"cos(theta_l)", -1.0, 1.0, (c.description "BToVectorLeptonNeutrino" "kinematics_description_c_theta_l")⟩,
       ⟨"cos(theta_d)", -1.0, 1.0, (c.description "BToVectorLeptonNeutrino" "kinematics_description_c_theta_d")⟩,
       ⟨"phi", 0.0, 2.0 * c.M_PI, (c.description "BToVectorLeptonNeutrino" "kinematics_description_phi")⟩]
      (c.member "BToVectorLeptonNeutrino" "integrated_branching_ratio" 2)
      ["q2_min", "q2_max"]
      rfl rfl,
    make_signal_pdf (c.decay "BToDLeptonInclusiveNeutrinos") 2 2 "B->Dmu1nu::d^2Gamma"
      ⟨[]⟩
      (c.member "BToDLeptonInclusiveNeutrinos" "differential_decay_width_1nu" 2)
      [⟨"s", 0.0, 19.71, (c.description "BToDLeptonInclusiveNeutrinos" "kinematics_description_s")⟩,
       ⟨"cos(theta)", -1.0, 1.0, (c.description "BToDLeptonInclusiveNeutrinos" "kinematics_description_c_theta")⟩]
      (c.member "BToDLeptonInclusiveNeutrinos" "integrated_decay_width_1nu" 2)
      ["s_min", "s_max"]
      rfl rfl,
    make_signal_pdf (c.decay "BToDLeptonInclusiveNeutrinos") 5 2 "B->Dmu3nu::d^5Gamma"
      ⟨[]⟩
      (c.member "BToDLeptonInclusiveNeutrinos" "differential_decay_width_3nu" 5)
      [⟨"s", 3.16, 19.71, (c.description "BToDLeptonInclusiveNeutrinos" "kinematics_description_s")⟩,
       ⟨"snunubar", 0.0, 3.16, (c.description "BToDLeptonInclusiveNeutrinos" "kinematics_description_snunubar")⟩,
       ⟨"cos(theta_tau)", -1.0, 1.0, (c.description "BToDLeptonInclusiveNeutrinos" "kinematics_description_c_theta_tau")⟩,
       ⟨"phi", 0.0, 2.0 * c.M_PI, (c.description "BToDLeptonInclusiveNeutrinos" "kinematics_description_phi")⟩,
       ⟨"cos(theta_mu^*)", -1.0, 1.0, (c.description "BToDLeptonInclusiveNeutrinos" "kinematics_description_c_theta_mu_star")⟩]
      (c.member "BToDLeptonInclusiveNeutrinos" "integrated_decay_width_3nu" 2)
      ["s_min", "s_max"]
      rfl rfl,
    make_signal_pdf (c.decay "BToPiLeptonInclusiveNeutrinos") 2 2 "B->pimu1nu::d^2Gamma"
      ⟨[]⟩
      (c.member "BToPiLeptonInclusiveNeutrinos" "differential_decay_width_1nu" 2)
      [⟨"s", 0.0, 26.41, (c.description "BToPiLeptonInclusiveNeutrinos" "kinematics_description_s")⟩,
       ⟨"cos(theta)", -1.0, 1.0, (c.description "BToPiLeptonInclusiveNeutrinos" "kinematics_description_c_theta")⟩]
      (c.member "BToPiLeptonInclusiveNeutrinos" "integrated_decay_width_1nu" 2)
      ["s_min", "s_max"]
      rfl rfl,
    make_signal_pdf (c.decay "BToPiLeptonInclusiveNeutrinos") 5 2 "B->pimu3nu::d^5Gamma"
      ⟨[]⟩
      (c.member "BToPiLeptonInclusiveNeutrinos" "differential_decay_width_3nu" 5)
      [⟨"s", 3.16, 26.41, (c.description "BToPiLeptonInclusiveNeutrinos" "kinematics_description_s")⟩,
       ⟨"snunubar", 0.0, 3.16, (c.description "BToPiLeptonInclusiveNeutrinos" "kinematics_description_snunubar")⟩,
       ⟨"cos(theta_tau)", -1.0, 1.0, (c.description "BToPiLeptonInclusiveNeutrinos" "kinematics_description_c_theta_tau")⟩,
       ⟨"phi", 0.0, 2.0 * c.M_PI, (c.description "BToPiLeptonInclusiveNeutrinos" "kinematics_description_phi")⟩,
       ⟨"cos(theta_mu^*)", -1.0, 1.0, (c.description "BToPiLeptonInclusiveNeutrinos" "kinematics_description_c_theta_mu_star")⟩]
      (c.member "BToPiLeptonInclusiveNeutrinos" "integrated_decay_width_3nu" 2)
      ["s_min", "s_max"]
      rfl rfl,
    make_signal_pdf (c.decay "BsToKstarLeptonNeutrino") 4 2 "B_s->K^*lnu::d^4Gamma"
      ⟨[]⟩
      (c.member "BsToKstarLeptonNeutrino" "four_differential_decay_width" 4)
      [⟨"s", 0.02, 19.71, (c.description "BsToKstarLeptonNeutrino" "kinematics_description_s")⟩,
       ⟨"cos(theta_l)", -1.0, 1.0, (c.description "BsToKstarLeptonNeutrino" "kinematics_description_c_theta_l")⟩,
       ⟨"cos(theta_k)", -1.0, 1.0, (c.description "BsToKstarLeptonNeutrino" "kinematics_description_c_theta_k")⟩,
       ⟨"phi", 0.0, 2.0 * c.M_PI, (c.description "BsToKstarLeptonNeutrino" "kinematics_description_phi")⟩]
      (c.member "BsToKstarLeptonNeutrino" "integrated_decay_width" 2)
      ["s_min", "s_max"]
      rfl rfl,
    make_signal_pdf (c.decay "BToVectorDineutrino") 1 2 "B^+->K^*+nunubar::dGamma/dq2"
      ⟨[("D", "s"), ("q", "u"), ("I", "1/2")]⟩
      (c.member "BToVectorDineutrino" "differential_branching_ratio" 1)
      [⟨"q2", 0.0, 19.25, (c.description "BToVectorDineutrino" "kinematics_description_q2")⟩]
      (c.member "BToVectorDineutrino" "integrated_branching_ratio" 2)
      ["q2_min", "q2_max"]
      rfl rfl,
    make_signal_pdf (c.decay "LambdaBToLambdaCLeptonNeutrino") 1 2 "Lambda_b->Lambda_clnu::dGamma"
      ⟨[]⟩
      (c.member "LambdaBToLambdaCLeptonNeutrino" "differential_branching_ratio" 1)
      [⟨"q2", 0.011, 11.1, (c.description "LambdaBToLambdaCLeptonNeutrino" "kinematics_description_q2")⟩]
      (c.member "LambdaBToLambdaCLeptonNeutrino" "integrated_branching_ratio" 2)
      ["q2_min", "q2_max"]
      rfl rfl,
    make_signal_pdf (c.decay "LambdaBToLambdaCLeptonNeutrino") 4 2 "Lambda_b->Lambda_clnu::d^4Gamma"
      ⟨[]⟩
      (c.member "LambdaBToLambdaCLeptonNeutrino" "four_differential_decay_width" 4)
      [⟨"q2", 0.011, 11.1, (c.description "LambdaBToLambdaCLeptonNeutrino" "kinematics_description_q2")⟩,
       ⟨"cos(theta_l)", -1.0, 1.0, (c.description "LambdaBToLambdaCLeptonNeutrino" "kinematics_description_c_theta_l")⟩,
       ⟨"cos(theta_L)", -1.0, 1.0, (c.description "LambdaBToLambdaCLeptonNeutrino" "kinematics_description_c_theta_L")⟩,
       ⟨"phi", 0.0, 2.0 * c.M_PI, (c.description "LambdaBToLambdaCLeptonNeutrino" "kinematics_description_phi")⟩]
      (c.member "LambdaBToLambdaCLeptonNeutrino" "integrated_decay_width" 2)
      ["q2_min", "q2_max"]
      rfl rfl,
    make_signal_pdf (c.decay "LambdaBToLambdaC2625LeptonNeutrino") 1 2 "Lambda_b->Lambda_c(2625)lnu::dGamma"
      ⟨[]⟩
      (c.member "LambdaBToLambdaC2625LeptonNeutrino" "differential_branching_ratio" 1)
      [⟨"s", 0.011, 8.9478, (c.description "LambdaBToLambdaC2625LeptonNeutrino" "kinematics_description_s")⟩]
      (c.member "LambdaBToLambdaC2625LeptonNeutrino" "integrated_branching_ratio" 2)
      ["s_min", "s_max"]
      rfl rfl,
    make_signal_pdf (c.decay "LambdaBToLambdaC2625LeptonNeutrino") 2 2 "Lambda_b->Lambda_c(2625)lnu::d^2Gamma"
      ⟨[]⟩
      (c.member "LambdaBToLambdaC2625LeptonNeutrino" "double_differential_branching_ratio" 2)
      [⟨"s", 0.011, 8.9478, (c.description "LambdaBToLambdaC2625LeptonNeutrino" "kinematics_description_s")⟩,
       ⟨"cos(theta_l)", -1.0, 1.0, (c.description "LambdaBToLambdaC2625LeptonNeutrino" "kinematics_description_c_theta_l")⟩]
      (c.member "LambdaBToLambdaC2625LeptonNeutrino" "integrated_branching_ratio" 2)
      ["s_min", "s_max"]
      rfl rfl,
    make_signal_pdf (c.decay "BToKDilepton") 2 2 "B->Kll::d^2Gamma@LargeRecoil"
      ⟨[("tag", "BFS2004")]⟩
      (c.member "BToKDilepton" "two_differential_decay_width" 2)
      [⟨"s", 1.00, 6.00, (c.description "BToKDilepton" "kinematics_description_s")⟩,
       ⟨"cos(theta_l)^LHCb", -1.0, 1.0, (c.description "BToKDilepton" "kinematics_description_c_theta_l")⟩]
      (c.member "BToKDilepton" "integrated_decay_width" 2)
      ["s_min", "s_max"]
      rfl rfl,
    make_signal_pdf (c.decay "BToKDilepton") 2 2 "B->Kll::d^2Gamma@LowRecoil"
      ⟨[("tag", "GP2004")]⟩
      (c.member "BToKDilepton" "two_differential_decay_width" 2)
      [⟨"s", 15.00, 22.87, (c.description "BToKDilepton" "kinematics_description_s")⟩,
       ⟨"cos(theta_l)^LHCb", -1.0, 1.0, (c.description "BToKDilepton" "kinematics_description_c_theta_l")⟩]
      (c.member "BToKDilepton" "integrated_decay_width" 2)
      ["s_min", "s_max"]
      rfl rfl,
    make_signal_pdf_function (c.decay "BToKstarDilepton") 4 2 "B->K^*ll::d^4Gamma@LargeRecoil"
      ⟨[("tag", "BFS2004")]⟩
      (c.member "BToKstarDilepton" "decay_width_LHCb" 4)
      [⟨"s", 1.00, 6.00, (c.description "BToKstarDilepton" "kinematics_description_s")⟩,
       ⟨"cos(theta_l)^LHCb", -1.0, 1.0, (c.description "BToKstarDilepton" "kinematics_description_c_theta_l")⟩,
       ⟨"cos(theta_k)^LHCb", -1.0, 1.0, (c.description "BToKstarDilepton" "kinematics_description_c_theta_k")⟩,
       ⟨"phi^LHCb", 0.0, 2.0 * c.M_PI, (c.description "BToKstarDilepton" "kinematics_description_phi")⟩]
      (fun decay q2_min q2_max =>
        c.integrated_decay_width decay (c.prepare decay q2_min q2_max))
      ["s_min", "s_max"]
      rfl rfl,
    make_signal_pdf_function (c.decay "BToKstarDilepton") 4 2 "B->K^*ll::d^4Gamma@LowRecoil"
      ⟨[("tag", "GP2004")]⟩
      (c.member "BToKstarDilepton" "decay_width_LHCb" 4)
      [⟨"s", 15.00, 19.21, (c.description "BToKstarDilepton" "kinematics_description_s")⟩,
       ⟨"cos(theta_l)^LHCb", -1.0, 1.0, (c.description "BToKstarDilepton" "kinematics_description_c_theta_l")⟩,
       ⟨"cos(theta_k)^LHCb", -1.0, 1.0, (c.description "BToKstarDilepton" "kinematics_description_c_theta_k")⟩,
       ⟨"phi^LHCb", 0.0, 2.0 * c.M_PI, (c.description "BToKstarDilepton" "kinematics_description_phi")⟩]
      (fun decay q2_min q2_max =>
        c.integrated_decay_width decay (c.prepare decay q2_min q2_max))
      ["s_min", "s_max"]
      rfl rfl
  ]

/-- The function `make_signal_pdf_entries`: the map built from the registrations. -/
def make_signal_pdf_entries {α : Type} [Field α] (c : Collaborators α) :
    List (QualifiedName × SignalPDFEntry α) :=
  StdMap.ofList QualifiedName.lt (signal_pdf_registrations c)

/-- The function `SignalPDF::make`. The result is `none` for the empty
`SignalPDFPtr()`. -/
def SignalPDF.make {α : Type} [Field α] (c : Collaborators α) (name : QualifiedName)
    (parameters : Parameters α) (kinematics : Kinematics α) (_options : Options) :
    Except Exception (Option (SignalPDF α)) :=
  let signal_pdf_entries := make_signal_pdf_entries c
  match StdMap.find QualifiedName.lt name signal_pdf_entries with
  | some i =>
    match i.2.make parameters kinematics (name.options + _options) with
    | .error err => .error err
    | .ok pdf => .ok (some pdf)
  | none => .ok none

/-- The class `SignalPDFs` with its `Implementation`: a copy of the catalog. -/
structure SignalPDFs (α : Type) where
  signal_pdf_entries : List (QualifiedName × SignalPDFEntry α)

namespace SignalPDFs

/-- The constructor `SignalPDFs::SignalPDFs()`. -/
def new {α : Type} [Field α] (c : Collaborators α) : SignalPDFs α :=
  ⟨make_signal_pdf_entries c⟩

/-- The iterator `SignalPDFs::SignalPDFIterator`, which wraps an iterator of the map:
a position in the in-order sequence of the map's elements. -/
structure SignalPDFIterator where
  position : Nat
deriving DecidableEq, Repr

/-- The member `SignalPDFs::begin`. -/
def begin_ {α : Type} (_s : SignalPDFs α) : SignalPDFIterator :=
  ⟨0⟩

/-- The member `SignalPDFs::end`. -/
def end_ {α : Type} (s : SignalPDFs α) : SignalPDFIterator :=
  ⟨s.signal_pdf_entries.length⟩

/-- The dereference `*i` of an iterator of `s`; `none` past the last element. -/
def deref {α : Type} (s : SignalPDFs α) (i : SignalPDFIterator) :
    Option (QualifiedName × SignalPDFEntry α) :=
  s.signal_pdf_entries[i.position]?

/-- The increment `++i`. -/
def next (i : SignalPDFIterator) : SignalPDFIterator :=
  ⟨i.position + 1⟩

/-- A full traversal `for (i = begin(); i != end(); ++i)` that collects `*i`; `fuel`
bounds the number of increments. The result is `none` when the fuel runs out before
`end()` is reached or when an iterator past `end()` is dereferenced. -/
def traverse {α : Type} (s : SignalPDFs α) :
    (fuel : Nat) → (i : SignalPDFIterator) →
      Option (List (QualifiedName × SignalPDFEntry α))
  | 0, i => if i = s.end_ then some [] else none
  | fuel + 1, i =>
    if i = s.end_ then some []
    else
      match s.deref i with
      | none => none
      | some x => (traverse s fuel (next i)).map (fun visited => x :: visited)

end SignalPDFs


/-- The function of `k` arguments that ignores them and returns `v`. -/
def NAry.const {α : Type} (v : α) : (k : Nat) → NAry α k
  | 0 => v
  | k + 1 => fun _ => NAry.const v k

/-- Specification of a positional call: `f(v₁, ..., v_k)` for a function `f` of `k`
arguments and a list of exactly `k` values, the i-th value being the i-th argument;
`none` when the number of values is not `k`. -/
def positional_call {α : Type} : (k : Nat) → NAry α k → List α → Option α
  | 0, f, [] => some f
  | k + 1, f, v :: vs => positional_call k (f v) vs
  | 0, _, _ :: _ => none
  | _ + 1, _, [] => none

/-- A stand-in for the collaborators, on which the catalog can be evaluated: every
model class is stateless, its constructor succeeds and all its functions return `0`;
`M_PI` is the value of the `double` constant. -/
def Collaborators.sample : Collaborators ℚ where
  M_PI := 884279719003555 / 281474976710656
  decay := fun _ => ⟨Unit, fun _ _ => .ok ()⟩
  member := fun _ _ k _ => NAry.const 0 k
  description := fun _ _ => ""
  IntermediateResult := Unit
  prepare := fun _ _ _ => ()
  integrated_decay_width := fun _ _ => 0

/-- An entry is bound when its arities match its declared lists and its two callables
are the positional forwarding of its two bound functions. -/
def SignalPDFEntry.Bound {α : Type} (e : SignalPDFEntry α) : Prop :=
  ∃ (hpdf : e.pdf_arity = e.pdf_kinematic_ranges.length)
    (hnorm : e.norm_arity = e.norm_kinematic_names.length),
    e.pdf_call = (fun decay kinematics =>
      bind_kinematics KinematicRange.name e.pdf_kinematic_ranges
        (hpdf ▸ e.pdf_function decay) kinematics) ∧
    e.norm_call = (fun decay kinematics =>
      bind_kinematics id e.norm_kinematic_names (hnorm ▸ e.norm_function decay) kinematics)

/-- The identifiers of the catalog, in source order. -/
def registered_names : List String :=
  ["Test::Legendre1D", "B_u->enumumu::d^5Gamma", "B_u->munuee::d^5Gamma",
   "B->pipimunu::d^3Gamma@QCDF", "B->pilnu::dGamma/dq2",
   "B->pilnu::d^2Gamma/dq2/dcos(theta_l)", "B->gammalnu::d^2Gamma/dEgamma/dcos(theta_l)",
   "B->Dlnu::dGamma/dq2", "B->Dlnu::d^2Gamma/dq2/dcos(theta_l)", "B->D^*lnu::dBR",
   "B->D^*lnu::d^4Gamma", "B->Dmu1nu::d^2Gamma", "B->Dmu3nu::d^5Gamma",
   "B->pimu1nu::d^2Gamma", "B->pimu3nu::d^5Gamma", "B_s->K^*lnu::d^4Gamma",
   "B^+->K^*+nunubar::dGamma/dq2", "Lambda_b->Lambda_clnu::dGamma",
   "Lambda_b->Lambda_clnu::d^4Gamma", "Lambda_b->Lambda_c(2625)lnu::dGamma",
   "Lambda_b->Lambda_c(2625)lnu::d^2Gamma", "B->Kll::d^2Gamma@LargeRecoil",
   "B->Kll::d^2Gamma@LowRecoil", "B->K^*ll::d^4Gamma@LargeRecoil",
   "B->K^*ll::d^4Gamma@LowRecoil"]

/-- The registration of `Test::Legendre1D` on the stand-in collaborators. -/
def sample_legendre : QualifiedName × SignalPDFEntry ℚ :=
  (signal_pdf_registrations Collaborators.sample).get ⟨0, by decide⟩

/-- The registration of `B_u->enumumu::d^5Gamma` on the stand-in collaborators; its
default options are `l=e` and `lprime=mu`. -/
def sample_enumumu : QualifiedName × SignalPDFEntry ℚ :=
  (signal_pdf_registrations Collaborators.sample).get ⟨1, by decide⟩

/-- The registration of `B->gammalnu::d^2Gamma/dEgamma/dcos(theta_l)` on the stand-in
collaborators. -/
def sample_gammalnu : QualifiedName × SignalPDFEntry ℚ :=
  (signal_pdf_registrations Collaborators.sample).get ⟨6, by decide⟩

/-- Specification of paired integration bounds: the bound names are consecutive pairs
`X_min`, `X_max` (in that order), where `X` is one of the given range names. -/
def paired_bounds (ranges : List String) : List String → Bool
  | [] => true
  | [_] => false
  | lower :: upper :: rest =>
    ranges.any (fun X => lower == X ++ "_min" && upper == X ++ "_max") &&
      paired_bounds ranges rest

/-- The identifier, the declared range names and the declared bound names of every
registration of the catalog, in source order. -/
def registered_bounds : List (String × List String × List String) :=
  [
   ("Test::Legendre1D",
    ["z"],
    ["z_min", "z_max"]),
   ("B_u->enumumu::d^5Gamma",
    ["q2", "k2", "z_gamma", "z_w", "phi"],
    ["q2_min", "q2_max", "k2_min", "k2_max"]),
   ("B_u->munuee::d^5Gamma",
    ["q2", "k2", "z_gamma", "z_w", "phi"],
    ["q2_min", "q2_max", "k2_min", "k2_max"]),
   ("B->pipimunu::d^3Gamma@QCDF",
    ["q2", "k2", "cos(theta)"],
    ["q2_min", "q2_max", "k2_min", "k2_max", "cos(theta)_min", "cos(theta)_max"]),
   ("B->pilnu::dGamma/dq2",
    ["q2"],
    ["q2_min", "q2_max"]),
   ("B->pilnu::d^2Gamma/dq2/dcos(theta_l)",
    ["q2", "cos(theta_l)"],
    ["q2_min", "q2_max"]),
   ("B->gammalnu::d^2Gamma/dEgamma/dcos(theta_l)",
    ["Egamma", "cos(theta_l)"],
    ["E_gamma_min"]),
   ("B->Dlnu::dGamma/dq2",
    ["q2"],
    ["q2_min", "q2_max"]),
   ("B->Dlnu::d^2Gamma/dq2/dcos(theta_l)",
    ["q2", "cos(theta_l)"],
    ["q2_min", "q2_max"]),
   ("B->D^*lnu::dBR",
    ["q2"],
    ["q2_min", "q2_max"]),
   ("B->D^*lnu::d^4Gamma",
    ["q2", "cos(theta_l)", "cos(theta_d)", "phi"],
    ["q2_min", "q2_max"]),
   ("B->Dmu1nu::d^2Gamma",
    ["s", "cos(theta)"],
    ["s_min", "s_max"]),
   ("B->Dmu3nu::d^5Gamma",
    ["s", "snunubar", "cos(theta_tau)", "phi", "cos(theta_mu^*)"],
    ["s_min", "s_max"]),
   ("B->pimu1nu::d^2Gamma",
    ["s", "cos(theta)"],
    ["s_min", "s_max"]),
   ("B->pimu3nu::d^5Gamma",
    ["s", "snunubar", "cos(theta_tau)", "phi", "cos(theta_mu^*)"],
    ["s_min", "s_max"]),
   ("B_s->K^*lnu::d^4Gamma",
    ["s", "cos(theta_l)", "cos(theta_k)", "phi"],
    ["s_min", "s_max"]),
   ("B^+->K^*+nunubar::dGamma/dq2",
    ["q2"],
    ["q2_min", "q2_max"]),
   ("Lambda_b->Lambda_clnu::dGamma",
    ["q2"],
    ["q2_min", "q2_max"]),
   ("Lambda_b->Lambda_clnu::d^4Gamma",
    ["q2", "cos(theta_l)", "cos(theta_L)", "phi"],
    ["q2_min", "q2_max"]),
   ("Lambda_b->Lambda_c(2625)lnu::dGamma",
    ["s"],
    ["s_min", "s_max"]),
   ("Lambda_b->Lambda_c(2625)lnu::d^2Gamma",
    ["s", "cos(theta_l)"],
    ["s_min", "s_max"]),
   ("B->Kll::d^2Gamma@LargeRecoil",
    ["s", "cos(theta_l)^LHCb"],
    ["s_min", "s_max"]),
   ("B->Kll::d^2Gamma@LowRecoil",
    ["s", "cos(theta_l)^LHCb"],
    ["s_min", "s_max"]),
   ("B->K^*ll::d^4Gamma@LargeRecoil",
    ["s", "cos(theta_l)^LHCb", "cos(theta_k)^LHCb", "phi^LHCb"],
    ["s_min", "s_max"]),
   ("B->K^*ll::d^4Gamma@LowRecoil",
    ["s", "cos(theta_l)^LHCb", "cos(theta_k)^LHCb", "phi^LHCb"],
    ["s_min", "s_max"])
  ]

/-! ## `eos/form-factors/parametric-aegjkvd2023` -/

/-- Modelled from the spec: `Parameters::operator[]` of `eos/utils/parameters.hh`, which
is not among the sources: the collaborator "supplies named physical constants by string
key; resolution failures (unknown key) are surfaced by the collaborator". -/
def Parameters.get {α : Type} (p : Parameters α) (name : String) : Except Exception α :=
  match p.values.lookup name with
  | some v => .ok v
  | none => .error (.Other ("unknown parameter " ++ name))

/-- The initialisation of an array of `UsedParameter(p[name], *this)`, one per name, in
order; a `UsedParameter` is embedded as the value of the parameter. -/
def Parameters.used {α : Type} (p : Parameters α) : List String → Except Exception (List α)
  | [] => .ok []
  | name :: names =>
    match p.get name with
    | .error e => .error e
    | .ok v =>
      match Parameters.used p names with
      | .error e => .error e
      | .ok vs => .ok (v :: vs)

/-- The class `SzegoPolynomial<9u>` of `eos/maths/szego-polynomial.hh` as far as
`parametric-aegjkvd2023.cc` constructs it: its two constructor arguments. -/
structure SzegoPolynomial (R : Type) where
  norm_measure : R
  verblunsky_coefficients : List R

/-- The functions that `parametric-aegjkvd2023` takes from `<cmath>`, `<complex>` and
`eos/maths/szego-polynomial.hh`, none of which is among the sources. `R` stands for
`double` and `C` for `complex<double>`; `szego` and `szego_complex` are
`SzegoPolynomial::operator()` on a `double` and on a `complex<double>`. -/
structure Maths (R C : Type) where
  M_PI : R
  sqrt : R → R
  pow : R → R → R
  complex : R → R → C
  csqrt : C → C
  cpow : C → R → C
  szego : SzegoPolynomial R → R → List R
  szego_complex : SzegoPolynomial R → C → List C

/-- The conversion of a `double` to `complex<double>`. -/
def Maths.real {R C : Type} [Field R] (m : Maths R C) (x : R) : C :=
  m.complex x 0.0

/-- The functions of a `Maths ℝ ℂ` are exact when they are the real and complex
functions that the C++ library functions approximate: `π`, the real square root and
power, the principal complex square root and power. -/
structure Maths.Exact (m : Maths ℝ ℂ) : Prop where
  M_PI_eq : m.M_PI = Real.pi
  sqrt_eq : ∀ x, m.sqrt x = Real.sqrt x
  pow_eq : ∀ x y : ℝ, m.pow x y = x ^ y
  complex_eq : ∀ re im, m.complex re im = ⟨re, im⟩
  csqrt_eq : ∀ z, m.csqrt z = z ^ (1 / 2 : ℂ)
  cpow_eq : ∀ (z : ℂ) (y : ℝ), m.cpow z y = z ^ (y : ℂ)

/-- The Szegő recurrence for real Verblunsky coefficients, from the polynomial
`phi`, its reverse `phi_star` and the squared norm `norm` of one degree to the
orthonormal polynomials of the higher degrees, all evaluated at `z`. -/
def SzegoPolynomial.recurrence {R T : Type} [Field R] [Field T] (ofReal : R → T)
    (sqrt : R → R) (z : T) : List R → T → T → R → List T
  | [], _, _, _ => []
  | alpha :: rest, phi, phi_star, norm =>
    let phi_next := z * phi - ofReal alpha * phi_star
    let phi_star_next := phi_star - ofReal alpha * z * phi
    let norm_next := norm * (1 - alpha * alpha)
    phi_next / ofReal (sqrt norm_next)
      :: SzegoPolynomial.recurrence ofReal sqrt z rest phi_next phi_star_next norm_next

/-- The orthonormal Szegő polynomials of degrees `0` to `9` at `z`, for the measure of
total mass `norm_measure` and the given Verblunsky coefficients. The member
`SzegoPolynomial::operator()` of `eos/maths/szego-polynomial.hh` is neither among the
sources nor described by the spec; this is the construction that the class is named
after, applied to its two constructor arguments, and it gives the values
`f_p(0) = 7.78799793` and `f_p(-1) = 2.47145192` that `ParametricAEGJKvD2023Test::run`
checks. -/
def SzegoPolynomial.evaluate {R T : Type} [Field R] [Field T] (ofReal : R → T)
    (sqrt : R → R) (s : SzegoPolynomial R) (z : T) : List T :=
  1 / ofReal (sqrt s.norm_measure)
    :: SzegoPolynomial.recurrence ofReal sqrt z s.verblunsky_coefficients 1 1 s.norm_measure

/-- The functions `szego` and `szego_complex` of a `Maths R C` are the Szegő polynomials
when they are `SzegoPolynomial.evaluate` on a `double` and on a `complex<double>`. -/
structure Maths.Szego {R C : Type} [Field R] [Field C] (m : Maths R C) : Prop where
  szego_eq : ∀ (s : SzegoPolynomial R) (x : R),
    m.szego s x = SzegoPolynomial.evaluate id m.sqrt s x
  szego_complex_eq : ∀ (s : SzegoPolynomial R) (z : C),
    m.szego_complex s z = SzegoPolynomial.evaluate m.real m.sqrt s z

namespace AEGJKvD2023

/-- The member `_par_name`, which the three classes define alike. -/
def _par_name (ff isospin index : String) : String :=
  "pi->pi::a_(" ++ ff ++ "," ++ isospin ++ ")^" ++ index ++ "@AEGJKvD2023"

/-- The names of the ten parameters of `_a_fp_I1`, in the order of the constructors. -/
def a_fp_I1_names : List String :=
  [_par_name "+" "1" "0", _par_name "+" "1" "1", _par_name "+" "1" "2",
   _par_name "+" "1" "3", _par_name "+" "1" "4", _par_name "+" "1" "5",
   _par_name "+" "1" "6", _par_name "+" "1" "7", _par_name "+" "1" "8",
   _par_name "+" "1" "9"]

end AEGJKvD2023

/-- The class `AEGJKvD2023UnitarityBounds`: its data member `_a_fp_I1`. -/
structure AEGJKvD2023UnitarityBounds (R : Type) where
  _a_fp_I1 : List R

namespace AEGJKvD2023UnitarityBounds

/-- The constructor `AEGJKvD2023UnitarityBounds(const Parameters &, const Options &)`. -/
def new {R : Type} (p : Parameters R) (_o : Options) :
    Except Exception (AEGJKvD2023UnitarityBounds R) :=
  match p.used AEGJKvD2023.a_fp_I1_names with
  | .error e => .error e
  | .ok a => .ok ⟨a⟩

/-- The member `bound_1m_I1`. -/
def bound_1m_I1 {R : Type} [Field R] (self : AEGJKvD2023UnitarityBounds R) : R :=
  self._a_fp_I1.foldl (fun sum a => sum + a * a) 0.0

end AEGJKvD2023UnitarityBounds

namespace AEGJKvD2023FormFactors

/-- The class `AEGJKvD2023FormFactors<PToP>`: its data members. -/
structure PToP (R : Type) where
  _a_fp_I1 : List R
  _m_pi : R
  _t_0 : R

/-- The class `AEGJKvD2023FormFactors<VacuumToPP>`: its data members. -/
structure VacuumToPP (R : Type) where
  _a_fp_I1 : List R
  _m_pi : R
  _t_0 : R

namespace PToP

/-- The constructor of `AEGJKvD2023FormFactors<PToP>`. -/
def new {R : Type} (p : Parameters R) (_o : Options) : Except Exception (PToP R) :=
  match p.used AEGJKvD2023.a_fp_I1_names with
  | .error e => .error e
  | .ok a =>
    match p.get "mass::pi^+" with
    | .error e => .error e
    | .ok m_pi =>
      match p.get "pi->pi::t_0@AEGJKvD2023" with
      | .error e => .error e
      | .ok t_0 => .ok ⟨a, m_pi, t_0⟩

/-- The member `_t_p`. -/
def _t_p {R : Type} [Field R] (self : PToP R) : R :=
  4.0 * self._m_pi * self._m_pi

/-- The member `_z`. -/
def _z {R C : Type} [Field R] (m : Maths R C) (self : PToP R) (q2 t_0 : R) : R :=
  let t_p := self._t_p
  (m.sqrt (t_p - q2) - m.sqrt (t_p - t_0)) / (m.sqrt (t_p - q2) + m.sqrt (t_p - t_0))

/-- The member `z`. -/
def z {R C : Type} [Field R] (m : Maths R C) (self : PToP R) (q2 : R) : R :=
  self._z m q2 self._t_0

/-- The member `f_t`, which throws. -/
def f_t {R : Type} (_self : PToP R) (_q2 : R) : Except Exception R :=
  .error (.InternalError "Not implemented!")

/-- The member `f_0`. -/
def f_0 {R : Type} [Field R] (_self : PToP R) (_q2 : R) : R :=
  0.0

end PToP

namespace VacuumToPP

/-- The constructor of `AEGJKvD2023FormFactors<VacuumToPP>`. -/
def new {R : Type} (p : Parameters R) (_o : Options) : Except Exception (VacuumToPP R) :=
  match p.used AEGJKvD2023.a_fp_I1_names with
  | .error e => .error e
  | .ok a =>
    match p.get "mass::pi^+" with
    | .error e => .error e
    | .ok m_pi =>
      match p.get "pi->pi::t_0@AEGJKvD2023" with
      | .error e => .error e
      | .ok t_0 => .ok ⟨a, m_pi, t_0⟩

/-- The member `_t_p`. -/
def _t_p {R : Type} [Field R] (self : VacuumToPP R) : R :=
  4.0 * self._m_pi * self._m_pi

/-- The member `_z`; `t_p - q2` subtracts a `double` from a `complex<double>`. -/
def _z {R C : Type} [Field R] [Field C] (m : Maths R C) (self : VacuumToPP R) (q2 : R)
    (t_0 : C) : C :=
  let t_p := m.complex self._t_p 0.0
  (m.csqrt (t_p - m.real q2) - m.csqrt (t_p - t_0))
    / (m.csqrt (t_p - m.real q2) + m.csqrt (t_p - t_0))

/-- The member `z`; the `double` `_t_0()` is converted to `complex<double>`. -/
def z {R C : Type} [Field R] [Field C] (m : Maths R C) (self : VacuumToPP R) (q2 : R) : C :=
  self._z m q2 (m.real self._t_0)

/-- The member `f_t`, which throws. -/
def f_t {R C : Type} (_m : Maths R C) (_self : VacuumToPP R) (_q2 : R) :
    Except Exception C :=
  .error (.InternalError "Not implemented!")

/-- The member `f_0`; the `double` `0.0` is converted to `complex<double>`. -/
def f_0 {R C : Type} [Field R] (m : Maths R C) (_self : VacuumToPP R) (_q2 : R) : C :=
  m.real 0.0

end VacuumToPP

end AEGJKvD2023FormFactors

/-- The parameters that `ParametricAEGJKvD2023Test::run` sets. -/
def parametric_aegjkvd2023_test_parameters {R : Type} [Field R] : Parameters R :=
  ⟨[("mass::pi^+", 0.13957),
    ("pi->pi::t_0@AEGJKvD2023", 0.0),
    ("pi->pi::a_(+,1)^0@AEGJKvD2023", 0.5),
    ("pi->pi::a_(+,1)^1@AEGJKvD2023", 0.25),
    ("pi->pi::a_(+,1)^2@AEGJKvD2023", 0.125),
    ("pi->pi::a_(+,1)^3@AEGJKvD2023", 0.0625),
    ("pi->pi::a_(+,1)^4@AEGJKvD2023", 0.03125),
    ("pi->pi::a_(+,1)^5@AEGJKvD2023", 0.015625),
    ("pi->pi::a_(+,1)^6@AEGJKvD2023", 7.8125e-3),
    ("pi->pi::a_(+,1)^7@AEGJKvD2023", 3.90625e-3),
    ("pi->pi::a_(+,1)^8@AEGJKvD2023", 1.953125e-3),
    ("pi->pi::a_(+,1)^9@AEGJKvD2023", 9.765625e-4)]⟩

/-- A second stand-in for the collaborators: as `Collaborators.sample`, but the
constructor of every model class rejects the option value `l=unknown`, a
model-construction failure in the sense of the spec ("e.g., an invalid option
value"). -/
def Collaborators.strict : Collaborators ℚ where
  M_PI := 884279719003555 / 281474976710656
  decay := fun _ =>
    ⟨Unit, fun _ o =>
      if o.get "l" = some "unknown" then .error (.Other "invalid option value")
      else .ok ()⟩
  member := fun _ _ k _ => NAry.const 0 k
  description := fun _ _ => ""
  IntermediateResult := Unit
  prepare := fun _ _ _ => ()
  integrated_decay_width := fun _ _ => 0

/-- The registration of `B->pilnu::dGamma/dq2` on the collaborators
`Collaborators.strict`. -/
def strict_pilnu : QualifiedName × SignalPDFEntry ℚ :=
  (signal_pdf_registrations Collaborators.strict).get ⟨4, by decide⟩

/-! ## Lemmas on `std::map` -/

namespace StdMap

universe u

variable {K κ : Type} {V : Type u} [LinearOrder κ]

theorem mem_of_mem_insert (less : K → K → Bool) (kv x : K × V) (m : List (K × V))
    (h : x ∈ insert less kv m) : x = kv ∨ x ∈ m := by
  induction m with
  | nil => simpa [insert] using h
  | cons y ys ih =>
    unfold insert at h
    split_ifs at h with h1 h2
    · simpa using h
    · rcases List.mem_cons.mp h with h | h
      · exact Or.inr (h ▸ List.mem_cons_self _ _)
      · rcases ih h with h | h
        · exact Or.inl h
        · exact Or.inr (List.mem_cons_of_mem _ h)
    · exact Or.inr h

theorem insert_sorted (less : K → K → Bool) (key : K → κ)
    (hless : ∀ a b, less a b = true ↔ key a < key b) (kv : K × V) (m : List (K × V))
    (h : m.Pairwise (fun a b => key a.1 < key b.1)) :
    (insert less kv m).Pairwise (fun a b => key a.1 < key b.1) := by
  induction m with
  | nil => simp [insert]
  | cons y ys ih =>
    have hy := List.pairwise_cons.mp h
    unfold insert
    split_ifs with h1 h2
    · have h1 := (hless _ _).mp h1
      refine List.pairwise_cons.mpr ⟨?_, h⟩
      intro z hz
      rcases List.mem_cons.mp hz with hz | hz
      · exact hz ▸ h1
      · exact lt_trans h1 (hy.1 z hz)
    · have h2 := (hless _ _).mp h2
      refine List.pairwise_cons.mpr ⟨?_, ih hy.2⟩
      intro z hz
      rcases mem_of_mem_insert less kv z ys hz with hz | hz
      · exact hz ▸ h2
      · exact hy.1 z hz
    · exact h

theorem insert_perm (less : K → K → Bool) (key : K → κ)
    (hless : ∀ a b, less a b = true ↔ key a < key b) (kv : K × V) (m : List (K × V))
    (h : ∀ x ∈ m, key x.1 ≠ key kv.1) : (insert less kv m).Perm (kv :: m) := by
  induction m with
  | nil => simp [insert]
  | cons y ys ih =>
    unfold insert
    split_ifs with h1 h2
    · exact List.Perm.refl _
    · exact ((ih (fun x hx => h x (List.mem_cons_of_mem _ hx))).cons y).trans
        (List.Perm.swap kv y ys)
    · exfalso
      have h1 : key y.1 ≤ key kv.1 := not_lt.mp (fun hlt => h1 ((hless _ _).mpr hlt))
      have h2 : key kv.1 ≤ key y.1 := not_lt.mp (fun hlt => h2 ((hless _ _).mpr hlt))
      exact h y (List.mem_cons_self _ _) (le_antisymm h1 h2)

theorem foldl_insert_sorted (less : K → K → Bool) (key : K → κ)
    (hless : ∀ a b, less a b = true ↔ key a < key b) (l acc : List (K × V))
    (h : acc.Pairwise (fun a b => key a.1 < key b.1)) :
    (l.foldl (fun m kv => insert less kv m) acc).Pairwise
      (fun a b => key a.1 < key b.1) := by
  induction l generalizing acc with
  | nil => simpa using h
  | cons x xs ih => exact ih _ (insert_sorted less key hless x acc h)

theorem foldl_insert_perm (less : K → K → Bool) (key : K → κ)
    (hless : ∀ a b, less a b = true ↔ key a < key b) (l acc : List (K × V))
    (hl : l.Pairwise (fun a b => key a.1 ≠ key b.1))
    (hacc : ∀ x ∈ l, ∀ y ∈ acc, key y.1 ≠ key x.1) :
    (l.foldl (fun m kv => insert less kv m) acc).Perm (acc ++ l) := by
  induction l generalizing acc with
  | nil => simp
  | cons x xs ih =>
    have hx := List.pairwise_cons.mp hl
    have hins := insert_perm less key hless x acc
      (fun y hy => hacc x (List.mem_cons_self _ _) y hy)
    have hstep := ih (insert less x acc) hx.2 (by
      intro z hz y hy
      rcases mem_of_mem_insert less x y acc hy with hy | hy
      · exact hy ▸ hx.1 z hz
      · exact hacc z (List.mem_cons_of_mem _ hz) y hy)
    refine hstep.trans ?_
    refine (List.Perm.append_right xs hins).trans ?_
    simpa using (@List.perm_middle _ x acc xs).symm

theorem ofList_sorted (less : K → K → Bool) (key : K → κ)
    (hless : ∀ a b, less a b = true ↔ key a < key b) (l : List (K × V)) :
    (ofList less l).Pairwise (fun a b => key a.1 < key b.1) :=
  foldl_insert_sorted less key hless l [] List.Pairwise.nil

theorem ofList_perm (less : K → K → Bool) (key : K → κ)
    (hless : ∀ a b, less a b = true ↔ key a < key b) (l : List (K × V))
    (hl : l.Pairwise (fun a b => key a.1 ≠ key b.1)) : (ofList less l).Perm l := by
  simpa [ofList] using foldl_insert_perm less key hless l [] hl (by simp)

theorem foldl_insert_subset (less : K → K → Bool) (l acc : List (K × V)) (x : K × V)
    (h : x ∈ l.foldl (fun m kv => insert less kv m) acc) : x ∈ acc ∨ x ∈ l := by
  induction l generalizing acc with
  | nil => exact Or.inl (by simpa using h)
  | cons y ys ih =>
    rcases ih _ h with h | h
    · rcases mem_of_mem_insert less y x acc h with h | h
      · exact Or.inr (h ▸ List.mem_cons_self _ _)
      · exact Or.inl h
    · exact Or.inr (List.mem_cons_of_mem _ h)

theorem mem_of_mem_ofList (less : K → K → Bool) (l : List (K × V)) (x : K × V)
    (h : x ∈ ofList less l) : x ∈ l := by
  rcases foldl_insert_subset less l [] x h with h | h
  · simp at h
  · exact h

theorem find_eq_none (less : K → K → Bool) (key : K → κ)
    (hless : ∀ a b, less a b = true ↔ key a < key b) (k : K) (m : List (K × V))
    (h : ∀ x ∈ m, key x.1 ≠ key k) : find less k m = none := by
  unfold find
  rw [List.find?_eq_none]
  intro x hx
  have hne := h x hx
  rcases lt_or_gt_of_ne hne with hlt | hgt
  · simp [(hless _ _).mpr hlt]
  · simp [(hless _ _).mpr hgt]

theorem find_eq_some (less : K → K → Bool) (key : K → κ)
    (hless : ∀ a b, less a b = true ↔ key a < key b) (k : K) (m : List (K × V))
    (hm : m.Pairwise (fun a b => key a.1 < key b.1)) (x : K × V) (hx : x ∈ m)
    (hk : key x.1 = key k) : find less k m = some x := by
  unfold find
  induction m with
  | nil => simp at hx
  | cons y ys ih =>
    have hy := List.pairwise_cons.mp hm
    rcases List.mem_cons.mp hx with hxy | hxs
    · subst hxy
      have h1 : less x.1 k = false := by
        cases hb : less x.1 k
        · rfl
        · exact absurd ((hless _ _).mp hb) (by rw [hk]; exact lt_irrefl _)
      have h2 : less k x.1 = false := by
        cases hb : less k x.1
        · rfl
        · exact absurd ((hless _ _).mp hb) (by rw [hk]; exact lt_irrefl _)
      simp [List.find?, h1, h2]
    · have hlt : key y.1 < key k := hk ▸ hy.1 x hxs
      have : (!less y.1 k && !less k y.1) = false := by
        simp [(hless _ _).mpr hlt]
      rw [List.find?_cons, this]
      exact ih hy.2 hxs

end StdMap

/-! ## Lemmas on options, the binder and the catalog -/

theorem Options.get_add (lower upper : Options) (key : String) :
    (lower + upper).get key =
      match upper.get key with
      | some v => some v
      | none => lower.get key := by
  show (Options.merge lower upper).get key = _
  unfold Options.merge Options.get
  rw [List.lookup_append]
  cases hu : List.lookup key upper.entries with
  | some v => simp
  | none =>
    simp only [Option.none_or]
    have hfilter : ∀ l : List (String × String),
        List.lookup key (l.filter (fun e => !upper.has e.1)) = List.lookup key l := by
      intro l
      induction l with
      | nil => rfl
      | cons e es ih =>
        by_cases hk : key = e.1
        · have hhas : upper.has e.1 = false := by
            simp [Options.has, Options.get, ← hk, hu]
          obtain ⟨e1, e2⟩ := e
          simp only at hk hhas
          subst hk
          simp [List.filter, hhas, List.lookup]
        · obtain ⟨e1, e2⟩ := e
          simp only at hk
          have hbeq : (key == e1) = false := by simpa using hk
          cases hh : (!upper.has e1)
          · simp [List.filter, hh, List.lookup, hbeq, ih]
          · simp [List.filter, hh, List.lookup, hbeq, ih]
    exact hfilter lower.entries

theorem bind_kinematics_absent {α β : Type} (nameOf : β → String) (declared : List β)
    (f : NAry α declared.length) (kinematics : Kinematics α)
    (h : ∃ d ∈ declared, kinematics.values.lookup (nameOf d) = none) :
    ∃ d ∈ declared, kinematics.values.lookup (nameOf d) = none ∧
      bind_kinematics nameOf declared f kinematics =
        .error (.UnknownKinematicVariable (nameOf d)) := by
  induction declared with
  | nil => simp at h
  | cons d ds ih =>
    cases hd : kinematics.values.lookup (nameOf d) with
    | none =>
      refine ⟨d, List.mem_cons_self _ _, hd, ?_⟩
      simp [bind_kinematics, Kinematics.get, hd]
    | some v =>
      obtain ⟨d', hd', hnone⟩ := h
      have hmem : d' ∈ ds := by
        rcases List.mem_cons.mp hd' with heq | hmem
        · rw [heq, hd] at hnone; cases hnone
        · exact hmem
      obtain ⟨e, he, hnone', hres⟩ := ih (f v) ⟨d', hmem, hnone⟩
      refine ⟨e, List.mem_cons_of_mem _ he, hnone', ?_⟩
      simp [bind_kinematics, Kinematics.get, hd, hres]

theorem make_signal_pdf_bound {α : Type} (D : DecayClass α) (k m : Nat) (name : String)
    (default_options : Options) (pdf : D.Instance → NAry α k)
    (pdf_kinematic_ranges : List (KinematicRange α)) (norm : D.Instance → NAry α m)
    (norm_kinematic_names : List String) (hpdf : k = pdf_kinematic_ranges.length)
    (hnorm : m = norm_kinematic_names.length) :
    (make_signal_pdf D k m name default_options pdf pdf_kinematic_ranges norm
      norm_kinematic_names hpdf hnorm).2.Bound :=
  ⟨hpdf, hnorm, rfl, rfl⟩

theorem QualifiedName.lt_iff (a b : QualifiedName) :
    QualifiedName.lt a b = true ↔ a.str < b.str := by
  simp [QualifiedName.lt]

theorem registrations_names {α : Type} [Field α] (c : Collaborators α) :
    (signal_pdf_registrations c).map (fun x => x.1.str) = registered_names := rfl

theorem registered_names_nodup : registered_names.Nodup := by decide

theorem registrations_distinct {α : Type} [Field α] (c : Collaborators α) :
    (signal_pdf_registrations c).Pairwise (fun a b => a.1.str ≠ b.1.str) := by
  have h := registered_names_nodup
  rw [← registrations_names c] at h
  exact List.pairwise_map.mp h

theorem entries_perm {α : Type} [Field α] (c : Collaborators α) :
    (make_signal_pdf_entries c).Perm (signal_pdf_registrations c) :=
  StdMap.ofList_perm QualifiedName.lt QualifiedName.str QualifiedName.lt_iff _
    (registrations_distinct c)

theorem entries_sorted {α : Type} [Field α] (c : Collaborators α) :
    (make_signal_pdf_entries c).Pairwise (fun a b => a.1.str < b.1.str) :=
  StdMap.ofList_sorted QualifiedName.lt QualifiedName.str QualifiedName.lt_iff _

theorem registrations_bound {α : Type} [Field α] (c : Collaborators α) :
    ∀ x ∈ signal_pdf_registrations c, x.2.Bound := by
  unfold signal_pdf_registrations
  simp only [List.forall_mem_cons, List.not_mem_nil, false_imp_iff, implies_true,
    and_true]
  refine ⟨?_, ?_, ?_, ?_, ?_, ?_, ?_, ?_, ?_, ?_, ?_, ?_, ?_, ?_, ?_, ?_, ?_, ?_, ?_, ?_,
    ?_, ?_, ?_, ?_, ?_⟩ <;>
  exact make_signal_pdf_bound _ _ _ _ _ _ _ _ _ _ _

theorem entries_bound {α : Type} [Field α] (c : Collaborators α) :
    ∀ x ∈ make_signal_pdf_entries c, x.2.Bound :=
  fun x hx => registrations_bound c x ((entries_perm c).mem_iff.mp hx)

theorem make_eq_of_mem {α : Type} [Field α] (c : Collaborators α) (name : QualifiedName)
    (parameters : Parameters α) (kinematics : Kinematics α) (options : Options)
    (x : QualifiedName × SignalPDFEntry α) (hx : x ∈ make_signal_pdf_entries c)
    (hname : x.1.str = name.str) :
    SignalPDF.make c name parameters kinematics options =
      Except.map some (x.2.make parameters kinematics (name.options + options)) := by
  unfold SignalPDF.make
  simp only
  rw [StdMap.find_eq_some QualifiedName.lt QualifiedName.str QualifiedName.lt_iff name _
    (entries_sorted c) x hx hname]
  dsimp only
  generalize x.2.make parameters kinematics (name.options + options) = r
  cases r <;> rfl

theorem legendre_mem {α : Type} [Field α] (c : Collaborators α) :
    make_signal_pdf (test.Legendre1DPDF.cls α) 1 2 "Test::Legendre1D" ⟨[]⟩
      test.Legendre1DPDF.pdf [⟨"z", -1.0, 1.0, ""⟩] test.Legendre1DPDF.norm
      ["z_min", "z_max"] rfl rfl ∈ make_signal_pdf_entries c :=
  (entries_perm c).mem_iff.mpr (List.mem_cons_self _ _)

theorem make_legendre {α : Type} [Field α] (c : Collaborators α) (name : QualifiedName)
    (parameters : Parameters α) (kinematics : Kinematics α) (options : Options)
    (hname : name.str = "Test::Legendre1D") :
    SignalPDF.make c name parameters kinematics options =
      .ok (some ⟨fun bag => bind_kinematics KinematicRange.name
                    [(⟨"z", -1.0, 1.0, ""⟩ : KinematicRange α)]
                    (test.Legendre1DPDF.pdf ⟨⟩) bag,
                 fun bag => bind_kinematics id ["z_min", "z_max"]
                    (test.Legendre1DPDF.norm ⟨⟩) bag⟩) := by
  rw [make_eq_of_mem c name parameters kinematics options _ (legendre_mem c) hname.symm]
  rfl

theorem bind_kinematics_present {α β : Type} (nameOf : β → String) (declared : List β)
    (f : NAry α declared.length) (kinematics : Kinematics α) (value : String → α)
    (h : ∀ d ∈ declared, kinematics.get (nameOf d) = .ok (value (nameOf d))) :
    ∃ w, positional_call declared.length f (declared.map (fun d => value (nameOf d))) =
        some w ∧
      bind_kinematics nameOf declared f kinematics = .ok w := by
  induction declared with
  | nil => exact ⟨f, rfl, rfl⟩
  | cons d ds ih =>
    obtain ⟨w, hw, hbind⟩ := ih (f (value (nameOf d)))
      (fun e he => h e (List.mem_cons_of_mem _ he))
    refine ⟨w, hw, ?_⟩
    simp only [bind_kinematics, h d (List.mem_cons_self _ _)]
    exact hbind

theorem SignalPDFEntry.Bound.arity {α : Type} {e : SignalPDFEntry α} (h : e.Bound) :
    e.pdf_kinematic_ranges.length = e.pdf_arity ∧
      e.norm_kinematic_names.length = e.norm_arity := by
  obtain ⟨hpdf, hnorm, _, _⟩ := h
  exact ⟨hpdf.symm, hnorm.symm⟩

theorem SignalPDFEntry.Bound.calls_present {α : Type} {e : SignalPDFEntry α}
    (h : e.Bound) (decay : e.Decay.Instance) (kinematics : Kinematics α)
    (value : String → α) :
    ((∀ r ∈ e.pdf_kinematic_ranges, kinematics.get r.name = .ok (value r.name)) →
      ∃ w, positional_call e.pdf_arity (e.pdf_function decay)
          (e.pdf_kinematic_ranges.map (fun r => value r.name)) = some w ∧
        e.pdf_call decay kinematics = .ok w) ∧
    ((∀ n ∈ e.norm_kinematic_names, kinematics.get n = .ok (value n)) →
      ∃ w, positional_call e.norm_arity (e.norm_function decay)
          (e.norm_kinematic_names.map value) = some w ∧
        e.norm_call decay kinematics = .ok w) := by
  obtain ⟨name, defaults, D, k, pdf, ranges, m, norm, names, pdf_call, norm_call⟩ := e
  obtain ⟨hpdf, hnorm, hpc, hnc⟩ := h
  simp only at hpdf hnorm hpc hnc decay
  subst hpdf hnorm hpc hnc
  exact ⟨fun hv => bind_kinematics_present KinematicRange.name ranges (pdf decay)
      kinematics value hv,
    fun hv => bind_kinematics_present id names (norm decay) kinematics value hv⟩

theorem SignalPDFEntry.Bound.calls_absent {α : Type} {e : SignalPDFEntry α}
    (h : e.Bound) (decay : e.Decay.Instance) (kinematics : Kinematics α) :
    ((∃ r ∈ e.pdf_kinematic_ranges, kinematics.values.lookup r.name = none) →
      ∃ r ∈ e.pdf_kinematic_ranges, kinematics.values.lookup r.name = none ∧
        e.pdf_call decay kinematics = .error (.UnknownKinematicVariable r.name)) ∧
    ((∃ n ∈ e.norm_kinematic_names, kinematics.values.lookup n = none) →
      ∃ n ∈ e.norm_kinematic_names, kinematics.values.lookup n = none ∧
        e.norm_call decay kinematics = .error (.UnknownKinematicVariable n)) := by
  obtain ⟨hpdf, hnorm, hpc, hnc⟩ := h
  rw [hpc, hnc]
  exact ⟨fun hv => bind_kinematics_absent KinematicRange.name _ _ kinematics hv,
    fun hv => bind_kinematics_absent id _ _ kinematics hv⟩

theorem SignalPDFEntry.make_ok {α : Type} (e : SignalPDFEntry α)
    (parameters : Parameters α) (kinematics : Kinematics α) (options : Options)
    (pdf : SignalPDF α) (h : e.make parameters kinematics options = .ok pdf) :
    ∃ decay, e.Decay.construct parameters (e.default_options + options) = .ok decay ∧
      pdf = ⟨e.pdf_call decay, e.norm_call decay⟩ := by
  unfold SignalPDFEntry.make at h
  cases hc : e.Decay.construct parameters (e.default_options + options) with
  | error err => rw [hc] at h; cases h
  | ok decay =>
    rw [hc] at h
    refine ⟨decay, rfl, ?_⟩
    cases h
    rfl

theorem SignalPDFs.traverse_eq_drop {α : Type} (s : SignalPDFs α) (fuel i : Nat)
    (hi : i ≤ s.signal_pdf_entries.length)
    (hfuel : s.signal_pdf_entries.length - i ≤ fuel) :
    s.traverse fuel ⟨i⟩ = some (s.signal_pdf_entries.drop i) := by
  induction fuel generalizing i with
  | zero =>
    have heq : i = s.signal_pdf_entries.length := by omega
    subst heq
    simp [SignalPDFs.traverse, SignalPDFs.end_]
  | succ fuel ih =>
    unfold SignalPDFs.traverse
    by_cases hend : (⟨i⟩ : SignalPDFs.SignalPDFIterator) = s.end_
    · have heq : i = s.signal_pdf_entries.length := by
        simpa [SignalPDFs.end_] using hend
      subst heq
      simp [SignalPDFs.end_]
    · have hlt : i < s.signal_pdf_entries.length := by
        rcases Nat.lt_or_ge i s.signal_pdf_entries.length with h | h
        · exact h
        · exact absurd (by simp [SignalPDFs.end_]; omega) hend
      rw [if_neg hend]
      simp only [SignalPDFs.deref, SignalPDFs.next, List.getElem?_eq_getElem hlt]
      rw [ih (i + 1) hlt (by omega), List.drop_eq_getElem_cons hlt]
      rfl

theorem SignalPDFs.traverse_some {α : Type} (s : SignalPDFs α) (fuel i : Nat)
    (hi : i ≤ s.signal_pdf_entries.length)
    (visited : List (QualifiedName × SignalPDFEntry α))
    (h : s.traverse fuel ⟨i⟩ = some visited) :
    visited = s.signal_pdf_entries.drop i := by
  induction fuel generalizing i visited with
  | zero =>
    unfold SignalPDFs.traverse at h
    split_ifs at h with hend
    have heq : i = s.signal_pdf_entries.length := by
      simpa [SignalPDFs.end_] using hend
    subst heq
    simpa using h.symm
  | succ fuel ih =>
    unfold SignalPDFs.traverse at h
    split_ifs at h with hend
    · have heq : i = s.signal_pdf_entries.length := by
        simpa [SignalPDFs.end_] using hend
      subst heq
      simpa using h.symm
    · have hlt : i < s.signal_pdf_entries.length := by
        rcases Nat.lt_or_ge i s.signal_pdf_entries.length with h | h
        · exact h
        · exact absurd (by simp [SignalPDFs.end_]; omega) hend
      simp only [SignalPDFs.deref, SignalPDFs.next, List.getElem?_eq_getElem hlt] at h
      cases hrest : s.traverse fuel ⟨i + 1⟩ with
      | none => rw [hrest] at h; simp at h
      | some rest =>
        rw [hrest] at h
        have hrest' := ih (i + 1) hlt rest hrest
        simp only [Option.map_some', Option.some.injEq] at h
        rw [← h, hrest', List.drop_eq_getElem_cons hlt]

/-! ## The claims -/

/-- C1: a qualified name whose identifier is not the identifier of any key of the
catalog `make_signal_pdf_entries` is looked up without error, and the result is the
empty `SignalPDFPtr`, whatever the parameters, the kinematics and the options are. -/
theorem make_unregistered {α : Type} [Field α] (c : Collaborators α)
    (name : QualifiedName) (parameters : Parameters α) (kinematics : Kinematics α)
    (options : Options)
    (h : ∀ x ∈ make_signal_pdf_entries c, x.1.str ≠ name.str) :
    SignalPDF.make c name parameters kinematics options = .ok none := by
  unfold SignalPDF.make
  simp only
  rw [StdMap.find_eq_none QualifiedName.lt QualifiedName.str QualifiedName.lt_iff name _ h]

/-- Witness of C1: the name `Test::NoSuchPDF` is not in the catalog built on the
stand-in collaborators, and its lookup with empty parameters, kinematics and options
returns the empty pointer. -/
theorem make_unregistered_witness :
    (∀ x ∈ make_signal_pdf_entries Collaborators.sample,
        x.1.str ≠ (QualifiedName.ofString "Test::NoSuchPDF").str) ∧
      SignalPDF.make Collaborators.sample (QualifiedName.ofString "Test::NoSuchPDF")
        ⟨[]⟩ ⟨[]⟩ ⟨[]⟩ = .ok none := by
  have h : ∀ x ∈ make_signal_pdf_entries Collaborators.sample,
      x.1.str ≠ (QualifiedName.ofString "Test::NoSuchPDF").str := by
    intro x hx
    have hmem : x.1.str ∈ registered_names := by
      rw [← registrations_names Collaborators.sample]
      exact List.mem_map_of_mem (fun x => x.1.str)
        ((entries_perm Collaborators.sample).mem_iff.mp hx)
    intro heq
    rw [heq] at hmem
    revert hmem
    decide
  exact ⟨h, make_unregistered Collaborators.sample _ _ _ _ h⟩

/-- C2 as stated fails: `B->pilnu::dGamma/dq2` is a key of the catalog, and on
collaborators whose model constructor rejects the option value `l=unknown` its lookup
with that caller option raises the constructor's error; no present result is returned. -/
theorem make_registered_not_present :
    strict_pilnu ∈ make_signal_pdf_entries Collaborators.strict ∧
      strict_pilnu.1.str = (QualifiedName.ofString "B->pilnu::dGamma/dq2").str ∧
      SignalPDF.make Collaborators.strict (QualifiedName.ofString "B->pilnu::dGamma/dq2")
          ⟨[]⟩ ⟨[]⟩ ⟨[("l", "unknown")]⟩ = .error (.Other "invalid option value") ∧
      ¬ ∃ pdf, SignalPDF.make Collaborators.strict
          (QualifiedName.ofString "B->pilnu::dGamma/dq2") ⟨[]⟩ ⟨[]⟩ ⟨[("l", "unknown")]⟩ =
        .ok (some pdf) := by
  have hx : strict_pilnu ∈ make_signal_pdf_entries Collaborators.strict :=
    (entries_perm Collaborators.strict).mem_iff.mpr (List.get_mem _ _ _)
  have hmake : SignalPDF.make Collaborators.strict
      (QualifiedName.ofString "B->pilnu::dGamma/dq2") ⟨[]⟩ ⟨[]⟩ ⟨[("l", "unknown")]⟩ =
      .error (.Other "invalid option value") := by
    rw [make_eq_of_mem Collaborators.strict (QualifiedName.ofString "B->pilnu::dGamma/dq2")
      ⟨[]⟩ ⟨[]⟩ ⟨[("l", "unknown")]⟩ strict_pilnu hx rfl]
    rfl
  refine ⟨hx, rfl, hmake, ?_⟩
  rintro ⟨pdf, hpdf⟩
  rw [hmake] at hpdf
  cases hpdf

/-- C2, amended: when the looked-up name has the identifier of a key of the catalog,
`SignalPDF::make` returns exactly what the `make` of the entry stored under that key
returns for the parameters, the kinematics and `name.options()` merged with the
caller's options: a present pointer to the density whenever that `make` returns one,
the error of that `make` when it raises one, and never the empty pointer; for
`Test::Legendre1D` the result is present for every input. -/
theorem make_registered {α : Type} [Field α] (c : Collaborators α) (name : QualifiedName)
    (parameters : Parameters α) (kinematics : Kinematics α) (options : Options)
    (x : QualifiedName × SignalPDFEntry α) (hx : x ∈ make_signal_pdf_entries c)
    (hname : x.1.str = name.str) :
    (SignalPDF.make c name parameters kinematics options =
      match x.2.make parameters kinematics (name.options + options) with
      | .error err => .error err
      | .ok pdf => .ok (some pdf)) ∧
    (∀ pdf, x.2.make parameters kinematics (name.options + options) = .ok pdf →
      SignalPDF.make c name parameters kinematics options = .ok (some pdf)) ∧
    (∀ err, x.2.make parameters kinematics (name.options + options) = .error err →
      SignalPDF.make c name parameters kinematics options = .error err) ∧
    SignalPDF.make c name parameters kinematics options ≠ .ok none ∧
    (name.str = "Test::Legendre1D" →
      ∃ pdf, SignalPDF.make c name parameters kinematics options = .ok (some pdf)) := by
  have hmake := make_eq_of_mem c name parameters kinematics options x hx hname
  refine ⟨?_, ?_, ?_, ?_, ?_⟩
  · rw [hmake]
    cases x.2.make parameters kinematics (name.options + options) <;> rfl
  · intro pdf hpdf
    rw [hmake, hpdf]
    rfl
  · intro err herr
    rw [hmake, herr]
    rfl
  · rw [hmake]
    cases x.2.make parameters kinematics (name.options + options) <;>
      simp [Except.map]
  · intro hlegendre
    exact ⟨_, make_legendre c name parameters kinematics options hlegendre⟩

/-- Witness of C2, amended: `Test::Legendre1D` is a key of the catalog built on the
stand-in collaborators; its lookup is the `make` of its entry, and that is a present
result. -/
theorem make_registered_witness :
    (make_signal_pdf (test.Legendre1DPDF.cls ℚ) 1 2 "Test::Legendre1D" ⟨[]⟩
        test.Legendre1DPDF.pdf [⟨"z", -1.0, 1.0, ""⟩] test.Legendre1DPDF.norm
        ["z_min", "z_max"] rfl rfl ∈ make_signal_pdf_entries Collaborators.sample) ∧
      (SignalPDF.make Collaborators.sample (QualifiedName.ofString "Test::Legendre1D")
          ⟨[]⟩ ⟨[]⟩ ⟨[("model", "SM")]⟩ =
        match (make_signal_pdf (test.Legendre1DPDF.cls ℚ) 1 2 "Test::Legendre1D" ⟨[]⟩
            test.Legendre1DPDF.pdf [⟨"z", -1.0, 1.0, ""⟩] test.Legendre1DPDF.norm
            ["z_min", "z_max"] rfl rfl).2.make ⟨[]⟩ ⟨[]⟩
            ((QualifiedName.ofString "Test::Legendre1D").options + ⟨[("model", "SM")]⟩) with
        | .error err => .error err
        | .ok pdf => .ok (some pdf)) ∧
      (∃ pdf, SignalPDF.make Collaborators.sample
          (QualifiedName.ofString "Test::Legendre1D") ⟨[]⟩ ⟨[]⟩ ⟨[("model", "SM")]⟩ =
        .ok (some pdf)) :=
  ⟨legendre_mem Collaborators.sample,
   (make_registered Collaborators.sample (QualifiedName.ofString "Test::Legendre1D")
     ⟨[]⟩ ⟨[]⟩ ⟨[("model", "SM")]⟩ _ (legendre_mem Collaborators.sample) rfl).1,
   (make_registered Collaborators.sample (QualifiedName.ofString "Test::Legendre1D")
     ⟨[]⟩ ⟨[]⟩ ⟨[("model", "SM")]⟩ _ (legendre_mem Collaborators.sample) rfl).2.2.2.2 rfl⟩

/-- C4: a density made by a catalog entry forwards the values of the declared names
positionally: when the bag holds `value n` under every declared name `n`, the
differential evaluation is the bound differential function called on the values of the
declared range names in declared order, and the normalization is the bound normalization
function called on the values of the declared bound names in declared order. For
`Test::Legendre1D` the normalization on a bag with `z_min = a` and `z_max = b`, set in
either order, is `Legendre1DPDF::norm(a, b)`, and the differential evaluation on a bag
with `z = v` is `Legendre1DPDF::pdf(v)`. -/
theorem density_forwards_positionally {α : Type} [Field α] (c : Collaborators α)
    (x : QualifiedName × SignalPDFEntry α) (hx : x ∈ make_signal_pdf_entries c)
    (parameters : Parameters α) (kinematics : Kinematics α) (options : Options)
    (pdf : SignalPDF α) (hmake : x.2.make parameters kinematics options = .ok pdf)
    (bag : Kinematics α) (value : String → α)
    (hranges : ∀ r ∈ x.2.pdf_kinematic_ranges, bag.get r.name = .ok (value r.name))
    (hnames : ∀ n ∈ x.2.norm_kinematic_names, bag.get n = .ok (value n)) :
    (∃ decay, x.2.Decay.construct parameters (x.2.default_options + options) = .ok decay ∧
      (∃ w, positional_call x.2.pdf_arity (x.2.pdf_function decay)
          (x.2.pdf_kinematic_ranges.map (fun r => value r.name)) = some w ∧
        pdf.evaluate bag = .ok w) ∧
      (∃ w, positional_call x.2.norm_arity (x.2.norm_function decay)
          (x.2.norm_kinematic_names.map value) = some w ∧
        pdf.normalization bag = .ok w)) ∧
    (∀ (name : QualifiedName) (p : Parameters α) (k : Kinematics α) (o : Options),
      name.str = "Test::Legendre1D" →
      ∃ legendre, SignalPDF.make c name p k o = .ok (some legendre) ∧
        ∀ (b0 : Kinematics α) (a b v : α),
          legendre.normalization ((b0.set "z_min" a).set "z_max" b) =
              .ok (test.Legendre1DPDF.norm ⟨⟩ a b) ∧
            legendre.normalization ((b0.set "z_max" b).set "z_min" a) =
              .ok (test.Legendre1DPDF.norm ⟨⟩ a b) ∧
            legendre.evaluate (b0.set "z" v) = .ok (test.Legendre1DPDF.pdf ⟨⟩ v)) := by
  constructor
  · obtain ⟨decay, hdecay, hpdf⟩ :=
      SignalPDFEntry.make_ok x.2 parameters kinematics options pdf hmake
    have hcalls := (entries_bound c x hx).calls_present decay bag value
    subst hpdf
    exact ⟨decay, hdecay, hcalls.1 hranges, hcalls.2 hnames⟩
  · intro name p k o hname
    refine ⟨_, make_legendre c name p k o hname, ?_⟩
    intro b0 a b v
    refine ⟨?_, ?_, ?_⟩ <;>
    simp [bind_kinematics, Kinematics.get, Kinematics.set, List.lookup]

/-- Witness of C4: the density of `Test::Legendre1D` on the stand-in collaborators,
evaluated on the bag `z = 0`, `z_min = -1`, `z_max = 1`. -/
theorem density_forwards_positionally_witness :
    (∃ w, positional_call sample_legendre.2.pdf_arity
        (sample_legendre.2.pdf_function ⟨⟩) [0] = some w ∧
      sample_legendre.2.pdf_call ⟨⟩ ⟨[("z", 0), ("z_min", -1), ("z_max", 1)]⟩ = .ok w) ∧
    (∃ w, positional_call sample_legendre.2.norm_arity
        (sample_legendre.2.norm_function ⟨⟩) [-1, 1] = some w ∧
      sample_legendre.2.norm_call ⟨⟩ ⟨[("z", 0), ("z_min", -1), ("z_max", 1)]⟩ =
        .ok w) := by
  have hx : sample_legendre ∈ make_signal_pdf_entries Collaborators.sample :=
    (entries_perm Collaborators.sample).mem_iff.mpr (List.get_mem _ _ _)
  have h := (density_forwards_positionally Collaborators.sample sample_legendre hx
    ⟨[]⟩ ⟨[]⟩ ⟨[]⟩ ⟨sample_legendre.2.pdf_call ⟨⟩, sample_legendre.2.norm_call ⟨⟩⟩ rfl
    ⟨[("z", 0), ("z_min", -1), ("z_max", 1)]⟩
    (fun n => if n = "z" then 0 else if n = "z_min" then -1 else 1)
    (by
      intro r hr
      have hr : r ∈ [(⟨"z", -1.0, 1.0, ""⟩ : KinematicRange ℚ)] := hr
      rw [List.mem_singleton] at hr
      subst hr
      rfl)
    (by
      intro n hn
      have hn : n ∈ ["z_min", "z_max"] := hn
      simp only [List.mem_cons, List.mem_singleton, List.not_mem_nil, or_false] at hn
      rcases hn with hn | hn <;> subst hn <;> rfl)).1
  obtain ⟨decay, _, hpdf, hnorm⟩ := h
  exact ⟨hpdf, hnorm⟩

/-- C5: for a density made by a catalog entry and a bag from which a declared range name
is absent, the differential evaluation fails with `UnknownKinematicVariable` (naming an
absent declared name) and returns no number; likewise the normalization when a declared
bound name is absent. -/
theorem density_missing_variable {α : Type} [Field α] (c : Collaborators α)
    (x : QualifiedName × SignalPDFEntry α) (hx : x ∈ make_signal_pdf_entries c)
    (parameters : Parameters α) (kinematics : Kinematics α) (options : Options)
    (pdf : SignalPDF α) (hmake : x.2.make parameters kinematics options = .ok pdf)
    (bag : Kinematics α) :
    ((∃ r ∈ x.2.pdf_kinematic_ranges, bag.values.lookup r.name = none) →
      (∃ r ∈ x.2.pdf_kinematic_ranges, bag.values.lookup r.name = none ∧
        pdf.evaluate bag = .error (.UnknownKinematicVariable r.name)) ∧
      ∀ w, pdf.evaluate bag ≠ .ok w) ∧
    ((∃ n ∈ x.2.norm_kinematic_names, bag.values.lookup n = none) →
      (∃ n ∈ x.2.norm_kinematic_names, bag.values.lookup n = none ∧
        pdf.normalization bag = .error (.UnknownKinematicVariable n)) ∧
      ∀ w, pdf.normalization bag ≠ .ok w) := by
  obtain ⟨decay, _, hpdf⟩ :=
    SignalPDFEntry.make_ok x.2 parameters kinematics options pdf hmake
  have hcalls := (entries_bound c x hx).calls_absent decay bag
  subst hpdf
  constructor
  · intro h
    obtain ⟨r, hr, hnone, herr⟩ := hcalls.1 h
    refine ⟨⟨r, hr, hnone, herr⟩, ?_⟩
    intro w hw
    have hw : x.2.pdf_call decay bag = .ok w := hw
    rw [herr] at hw
    cases hw
  · intro h
    obtain ⟨n, hn, hnone, herr⟩ := hcalls.2 h
    refine ⟨⟨n, hn, hnone, herr⟩, ?_⟩
    intro w hw
    have hw : x.2.norm_call decay bag = .ok w := hw
    rw [herr] at hw
    cases hw

/-- Witness of C5: the density of `B_u->enumumu::d^5Gamma` on the stand-in
collaborators; the bag lacks `k2` of the declared ranges and `q2_max` of the declared
bound names, and both evaluations fail with `UnknownKinematicVariable`. -/
theorem density_missing_variable_witness :
    (∃ r ∈ sample_enumumu.2.pdf_kinematic_ranges,
      sample_enumumu.2.pdf_call ()
          ⟨[("q2", 1), ("z_gamma", 0), ("z_w", 0), ("phi", 0), ("q2_min", 1)]⟩ =
        .error (.UnknownKinematicVariable r.name)) ∧
    (∃ n ∈ sample_enumumu.2.norm_kinematic_names,
      sample_enumumu.2.norm_call ()
          ⟨[("q2", 1), ("z_gamma", 0), ("z_w", 0), ("phi", 0), ("q2_min", 1)]⟩ =
        .error (.UnknownKinematicVariable n)) := by
  have hx : sample_enumumu ∈ make_signal_pdf_entries Collaborators.sample :=
    (entries_perm Collaborators.sample).mem_iff.mpr (List.get_mem _ _ _)
  have h := density_missing_variable Collaborators.sample sample_enumumu hx
    ⟨[]⟩ ⟨[]⟩ ⟨[]⟩ ⟨sample_enumumu.2.pdf_call (), sample_enumumu.2.norm_call ()⟩ rfl
    ⟨[("q2", 1), ("z_gamma", 0), ("z_w", 0), ("phi", 0), ("q2_min", 1)]⟩
  have hr : ∃ r ∈ sample_enumumu.2.pdf_kinematic_ranges,
      List.lookup r.name [("q2", (1 : ℚ)), ("z_gamma", 0), ("z_w", 0), ("phi", 0),
        ("q2_min", 1)] = none :=
    ⟨sample_enumumu.2.pdf_kinematic_ranges.get ⟨1, by decide⟩, List.get_mem _ _ _, rfl⟩
  have hn : ∃ n ∈ sample_enumumu.2.norm_kinematic_names,
      List.lookup n [("q2", (1 : ℚ)), ("z_gamma", 0), ("z_w", 0), ("phi", 0),
        ("q2_min", 1)] = none :=
    ⟨"q2_max", by decide, rfl⟩
  obtain ⟨r, hr1, _, hr3⟩ := (h.1 hr).1
  obtain ⟨n, hn1, _, hn3⟩ := (h.2 hn).1
  exact ⟨⟨r, hr1, hr3⟩, ⟨n, hn1, hn3⟩⟩

/-- C6: every entry of the catalog declares as many kinematic ranges as its bound
differential function has arguments, and as many bound names as its bound normalization
function has arguments. -/
theorem registered_arities {α : Type} [Field α] (c : Collaborators α)
    (x : QualifiedName × SignalPDFEntry α) (hx : x ∈ make_signal_pdf_entries c) :
    x.2.pdf_kinematic_ranges.length = x.2.pdf_arity ∧
      x.2.norm_kinematic_names.length = x.2.norm_arity :=
  (entries_bound c x hx).arity

/-- Witness of C6: `Test::Legendre1D` declares 1 range for `pdf(z)` and 2 names for
`norm(z_min, z_max)`. -/
theorem registered_arities_witness :
    sample_legendre ∈ make_signal_pdf_entries Collaborators.sample ∧
      sample_legendre.1.str = "Test::Legendre1D" ∧
      (sample_legendre.2.pdf_kinematic_ranges.length = 1 ∧
        sample_legendre.2.pdf_arity = 1) ∧
      (sample_legendre.2.norm_kinematic_names.length = 2 ∧
        sample_legendre.2.norm_arity = 2) := by
  have hx : sample_legendre ∈ make_signal_pdf_entries Collaborators.sample :=
    (entries_perm Collaborators.sample).mem_iff.mpr (List.get_mem _ _ _)
  have h := registered_arities Collaborators.sample sample_legendre hx
  exact ⟨hx, rfl, ⟨h.1.trans rfl, rfl⟩, ⟨h.2.trans rfl, rfl⟩⟩

/-- C7: for every real `z`, `Legendre1DPDF::pdf(z)` is `9 + 8 z + 9 z^2`; `pdf(0)` is
`9`, and the differential evaluation of the density looked up as `Test::Legendre1D`
returns `9` once the bag's `z` is set to `0`. -/
theorem legendre_pdf_value (z : ℝ) (c : Collaborators ℝ) (parameters : Parameters ℝ)
    (kinematics : Kinematics ℝ) (options : Options) (bag : Kinematics ℝ) :
    test.Legendre1DPDF.pdf ⟨⟩ z = 9 + 8 * z + 9 * z ^ 2 ∧
      test.Legendre1DPDF.pdf ⟨⟩ (0 : ℝ) = 9 ∧
      ∃ pdf, SignalPDF.make c (QualifiedName.ofString "Test::Legendre1D") parameters
          kinematics options = .ok (some pdf) ∧
        pdf.evaluate (bag.set "z" 0.0) = .ok 9.0 := by
  refine ⟨?_, ?_, _, make_legendre c _ parameters kinematics options rfl, ?_⟩
  · unfold test.Legendre1DPDF.pdf
    norm_num
    ring
  · unfold test.Legendre1DPDF.pdf
    norm_num
  · simp [bind_kinematics, Kinematics.get, Kinematics.set, List.lookup,
      test.Legendre1DPDF.pdf]
    norm_num

/-- C8 as stated fails: `Legendre1DPDF::norm(-1, 1)` is not `18`. -/
theorem legendre_norm_not_18 : test.Legendre1DPDF.norm ⟨⟩ (-1 : ℝ) 1 ≠ 18 := by
  unfold test.Legendre1DPDF.norm power_of
  norm_num

/-- C8, amended: `Legendre1DPDF::norm(z_min, z_max)` is
`9 (z_max - z_min) + 4 (z_max^2 - z_min^2) + 3 (z_max^3 - z_min^3)` for all real bounds,
and over `[-1, 1]` it returns `24`. -/
theorem legendre_norm_value (z_min z_max : ℝ) :
    test.Legendre1DPDF.norm ⟨⟩ z_min z_max =
        9 * (z_max - z_min) + 4 * (z_max ^ 2 - z_min ^ 2) + 3 * (z_max ^ 3 - z_min ^ 3) ∧
      test.Legendre1DPDF.norm ⟨⟩ (-1 : ℝ) 1 = 24 := by
  constructor
  · unfold test.Legendre1DPDF.norm power_of
    norm_num
  · unfold test.Legendre1DPDF.norm power_of
    norm_num

/-- C9 as stated fails: `Legendre1DPDF::pdf(0)` divided by `Legendre1DPDF::norm(-1, 1)`
is not `0.5`. -/
theorem legendre_density_not_half :
    test.Legendre1DPDF.pdf ⟨⟩ (0 : ℝ) / test.Legendre1DPDF.norm ⟨⟩ (-1 : ℝ) 1 ≠ 0.5 := by
  unfold test.Legendre1DPDF.pdf test.Legendre1DPDF.norm power_of
  norm_num

/-- C9, amended: `Legendre1DPDF::pdf(0)` divided by `Legendre1DPDF::norm(-1, 1)` is
`0.375`. -/
theorem legendre_density_value :
    test.Legendre1DPDF.pdf ⟨⟩ (0 : ℝ) / test.Legendre1DPDF.norm ⟨⟩ (-1 : ℝ) 1 = 0.375 := by
  unfold test.Legendre1DPDF.pdf test.Legendre1DPDF.norm power_of
  norm_num

/-- C10: a full traversal from `SignalPDFs::begin()` to `SignalPDFs::end()` terminates
(with as many increments as the catalog has entries, or any larger bound) and visits a
rearrangement of the registrations, so every registered pair exactly once, in strictly
increasing order of the key; any two completed traversals visit the same sequence of
qualified names. -/
theorem enumeration_sorted_complete {α : Type} [Field α] (c : Collaborators α) :
    ∃ visited : List (QualifiedName × SignalPDFEntry α),
      (∀ extra : Nat,
        (SignalPDFs.new c).traverse ((SignalPDFs.new c).signal_pdf_entries.length + extra)
          (SignalPDFs.new c).begin_ = some visited) ∧
      visited.Perm (signal_pdf_registrations c) ∧
      visited.Pairwise (fun a b => QualifiedName.lt a.1 b.1 = true) ∧
      (visited.map (fun x => x.1)).Nodup ∧
      visited.length = 25 ∧
      (∀ (fuel₁ fuel₂ : Nat) (first second : List (QualifiedName × SignalPDFEntry α)),
        (SignalPDFs.new c).traverse fuel₁ (SignalPDFs.new c).begin_ = some first →
        (SignalPDFs.new c).traverse fuel₂ (SignalPDFs.new c).begin_ = some second →
        first.map (fun x => x.1) = second.map (fun x => x.1)) := by
  have hnew : (SignalPDFs.new c).signal_pdf_entries = make_signal_pdf_entries c := by
    simp only [SignalPDFs.new]
  have hsorted : (make_signal_pdf_entries c).Pairwise
      (fun a b => QualifiedName.lt a.1 b.1 = true) :=
    (entries_sorted c).imp (fun h => (QualifiedName.lt_iff _ _).mpr h)
  refine ⟨make_signal_pdf_entries c, ?_, entries_perm c, hsorted, ?_, ?_, ?_⟩
  · intro extra
    have h := SignalPDFs.traverse_eq_drop (SignalPDFs.new c)
      ((SignalPDFs.new c).signal_pdf_entries.length + extra) 0 (Nat.zero_le _) (by omega)
    rw [List.drop_zero, hnew] at h
    rw [hnew]
    exact h
  · have hstr : ((make_signal_pdf_entries c).map (fun x => x.1.str)).Nodup :=
      List.pairwise_map.mpr ((entries_sorted c).imp (fun h => ne_of_lt h))
    have hmap : (make_signal_pdf_entries c).map (fun x => x.1.str) =
        ((make_signal_pdf_entries c).map (fun x => x.1)).map QualifiedName.str := by
      rw [List.map_map]
      rfl
    rw [hmap] at hstr
    exact hstr.of_map _
  · rw [(entries_perm c).length_eq, ← List.length_map (signal_pdf_registrations c)
      (fun x => x.1.str), registrations_names c]
    rfl
  · intro fuel₁ fuel₂ first second h₁ h₂
    have e₁ := SignalPDFs.traverse_some (SignalPDFs.new c) fuel₁ 0 (Nat.zero_le _) first h₁
    have e₂ := SignalPDFs.traverse_some (SignalPDFs.new c) fuel₂ 0 (Nat.zero_le _) second h₂
    rw [e₁, e₂]

theorem registrations_bounds {α : Type} [Field α] (c : Collaborators α) :
    (signal_pdf_registrations c).map (fun x =>
      (x.1.str, x.2.pdf_kinematic_ranges.map KinematicRange.name,
        x.2.norm_kinematic_names)) = registered_bounds := rfl

theorem registered_bounds_paired :
    ∀ m ∈ registered_bounds, m.1 ≠ "B->gammalnu::d^2Gamma/dEgamma/dcos(theta_l)" →
      paired_bounds m.2.1 m.2.2 = true := by
  decide

theorem StdMap.eq_of_sorted_of_perm {K κ : Type} {V : Type u} [LinearOrder κ]
    (key : K → κ) (l₁ l₂ : List (K × V)) (hperm : l₁.Perm l₂)
    (h₁ : l₁.Pairwise (fun a b => key a.1 < key b.1))
    (h₂ : l₂.Pairwise (fun a b => key a.1 < key b.1)) : l₁ = l₂ := by
  induction l₁ generalizing l₂ with
  | nil => exact (List.nil_perm.mp hperm).symm
  | cons x xs ih =>
    cases l₂ with
    | nil => exact absurd hperm.symm (by simp)
    | cons y ys =>
      have hx := List.pairwise_cons.mp h₁
      have hy := List.pairwise_cons.mp h₂
      have hxy : x = y := by
        have hxmem : x ∈ y :: ys := hperm.mem_iff.mp (List.mem_cons_self _ _)
        have hymem : y ∈ x :: xs := hperm.mem_iff.mpr (List.mem_cons_self _ _)
        rcases List.mem_cons.mp hxmem with h | h
        · exact h
        · rcases List.mem_cons.mp hymem with h' | h'
          · exact h'.symm
          · exact absurd (hx.1 y h') (lt_asymm (hy.1 x h))
      subst hxy
      rw [ih ys (List.Perm.cons_inv hperm) hx.2 hy.2]

theorem registrations_keys {α : Type} [Field α] (c : Collaborators α) :
    ∀ x ∈ signal_pdf_registrations c, x.1 = QualifiedName.ofString x.1.str := by
  unfold signal_pdf_registrations
  simp only [List.forall_mem_cons, List.not_mem_nil, false_imp_iff, implies_true,
    and_true]
  refine ⟨?_, ?_, ?_, ?_, ?_, ?_, ?_, ?_, ?_, ?_, ?_, ?_, ?_, ?_, ?_, ?_, ?_, ?_, ?_, ?_,
    ?_, ?_, ?_, ?_, ?_⟩ <;> rfl

/-- C11: the map built from any rearrangement of the registrations of
`make_signal_pdf_entries` is the map built from them in source order; hence every lookup
finds the same entry and the enumeration yields the same sequence of qualified names. -/
theorem registry_order_independent {α : Type} [Field α] (c : Collaborators α)
    (registrations : List (QualifiedName × SignalPDFEntry α))
    (h : registrations.Perm (signal_pdf_registrations c)) :
    StdMap.ofList QualifiedName.lt registrations = make_signal_pdf_entries c ∧
      (∀ name : QualifiedName,
        StdMap.find QualifiedName.lt name (StdMap.ofList QualifiedName.lt registrations) =
          StdMap.find QualifiedName.lt name (make_signal_pdf_entries c)) ∧
      (StdMap.ofList QualifiedName.lt registrations).map (fun x => x.1) =
        (make_signal_pdf_entries c).map (fun x => x.1) := by
  have hdistinct : registrations.Pairwise (fun a b => a.1.str ≠ b.1.str) :=
    (h.pairwise_iff (fun {a b} (hab : a.1.str ≠ b.1.str) => hab.symm)).mpr
      (registrations_distinct c)
  have hperm : (StdMap.ofList QualifiedName.lt registrations).Perm
      (make_signal_pdf_entries c) :=
    ((StdMap.ofList_perm QualifiedName.lt QualifiedName.str QualifiedName.lt_iff _
      hdistinct).trans h).trans (entries_perm c).symm
  have heq := StdMap.eq_of_sorted_of_perm QualifiedName.str _ _ hperm
    (StdMap.ofList_sorted QualifiedName.lt QualifiedName.str QualifiedName.lt_iff _)
    (entries_sorted c)
  rw [heq]
  exact ⟨rfl, fun _ => rfl, rfl⟩

/-- Witness of C11: the registrations on the stand-in collaborators in reverse source
order build the same map. -/
theorem registry_order_independent_witness :
    (signal_pdf_registrations Collaborators.sample).reverse.Perm
        (signal_pdf_registrations Collaborators.sample) ∧
      StdMap.ofList QualifiedName.lt (signal_pdf_registrations Collaborators.sample).reverse =
        make_signal_pdf_entries Collaborators.sample :=
  ⟨List.reverse_perm _,
   (registry_order_independent Collaborators.sample _ (List.reverse_perm _)).1⟩

/-- C12: a lookup under the identifier of a catalog key with any option set embedded in
the name finds the entry of that key, which is registered without embedded options, and
is never a miss; the embedded options reach the entry's `make` merged below the caller's
options, and the model constructor above the registration defaults. -/
theorem lookup_with_embedded_options {α : Type} [Field α] (c : Collaborators α)
    (x : QualifiedName × SignalPDFEntry α) (hx : x ∈ make_signal_pdf_entries c)
    (embedded : Options) (parameters : Parameters α) (kinematics : Kinematics α)
    (options : Options) :
    x.1.options = ⟨[]⟩ ∧
    StdMap.find QualifiedName.lt ⟨x.1.str, embedded⟩ (make_signal_pdf_entries c) = some x ∧
    (SignalPDF.make c ⟨x.1.str, embedded⟩ parameters kinematics options =
      match x.2.make parameters kinematics (embedded + options) with
      | .error err => .error err
      | .ok pdf => .ok (some pdf)) ∧
    SignalPDF.make c ⟨x.1.str, embedded⟩ parameters kinematics options ≠ .ok none ∧
    (x.2.make parameters kinematics (embedded + options) =
      match x.2.Decay.construct parameters
          (x.2.default_options + (embedded + options)) with
      | .error err => .error err
      | .ok decay => .ok ⟨x.2.pdf_call decay, x.2.norm_call decay⟩) ∧
    (∀ key, (x.2.default_options + (embedded + options)).get key =
      match options.get key with
      | some v => some v
      | none =>
        match embedded.get key with
        | some v => some v
        | none => x.2.default_options.get key) := by
  have hmake := make_eq_of_mem c ⟨x.1.str, embedded⟩ parameters kinematics options x hx rfl
  refine ⟨?_, ?_, ?_, ?_, ?_, ?_⟩
  · rw [registrations_keys c x ((entries_perm c).mem_iff.mp hx)]
    rfl
  · exact StdMap.find_eq_some QualifiedName.lt QualifiedName.str QualifiedName.lt_iff _ _
      (entries_sorted c) x hx rfl
  · rw [hmake]
    cases x.2.make parameters kinematics (embedded + options) <;> rfl
  · rw [hmake]
    cases x.2.make parameters kinematics (embedded + options) <;>
      simp [Except.map]
  · unfold SignalPDFEntry.make
    cases x.2.Decay.construct parameters (x.2.default_options + (embedded + options)) <;>
      rfl
  · intro key
    rw [Options.get_add, Options.get_add]
    cases options.get key <;> rfl

/-- Witness of C12: `B_u->enumumu::d^5Gamma;l=tau` (the option `l=tau` embedded in the
name) finds the entry registered as `B_u->enumumu::d^5Gamma` on the stand-in
collaborators, and the result is present. -/
theorem lookup_with_embedded_options_witness :
    sample_enumumu ∈ make_signal_pdf_entries Collaborators.sample ∧
      StdMap.find QualifiedName.lt ⟨"B_u->enumumu::d^5Gamma", ⟨[("l", "tau")]⟩⟩
          (make_signal_pdf_entries Collaborators.sample) = some sample_enumumu ∧
      SignalPDF.make Collaborators.sample ⟨"B_u->enumumu::d^5Gamma", ⟨[("l", "tau")]⟩⟩
          ⟨[]⟩ ⟨[]⟩ ⟨[]⟩ ≠ .ok none ∧
      (sample_enumumu.2.default_options + ((⟨[("l", "tau")]⟩ : Options) + ⟨[]⟩)).get "l" =
        some "tau" := by
  have hx : sample_enumumu ∈ make_signal_pdf_entries Collaborators.sample :=
    (entries_perm Collaborators.sample).mem_iff.mpr (List.get_mem _ _ _)
  have h := lookup_with_embedded_options Collaborators.sample sample_enumumu hx
    ⟨[("l", "tau")]⟩ ⟨[]⟩ ⟨[]⟩ ⟨[]⟩
  exact ⟨hx, h.2.1, h.2.2.2.1, (h.2.2.2.2.2 "l").trans rfl⟩

theorem registrations_ranges_ordered {α : Type} [LinearOrderedField α]
    (c : Collaborators α) (hpi : 0 ≤ c.M_PI) :
    ∀ x ∈ signal_pdf_registrations c, ∀ r ∈ x.2.pdf_kinematic_ranges, r.min ≤ r.max := by
  unfold signal_pdf_registrations
  simp only [List.forall_mem_cons, List.not_mem_nil, false_imp_iff, implies_true,
    and_true, make_signal_pdf, make_signal_pdf_function, make_concrete_signal_pdf_entry]
  norm_num
  exact hpi

/-- C13: when the constant `M_PI` is not negative, every `KinematicRange` declared by
every entry of the catalog has `min <= max`, the ranges from `-M_PI` to `M_PI` and from
`0` to `2 M_PI` included. -/
theorem registered_ranges_ordered {α : Type} [LinearOrderedField α]
    (c : Collaborators α) (hpi : 0 ≤ c.M_PI)
    (x : QualifiedName × SignalPDFEntry α) (hx : x ∈ make_signal_pdf_entries c)
    (r : KinematicRange α) (hr : r ∈ x.2.pdf_kinematic_ranges) : r.min ≤ r.max :=
  registrations_ranges_ordered c hpi x ((entries_perm c).mem_iff.mp hx) r hr

/-- Witness of C13: the range `phi` of `B_u->enumumu::d^5Gamma`, from `-M_PI` to `M_PI`,
on the stand-in collaborators. -/
theorem registered_ranges_ordered_witness :
    0 ≤ Collaborators.sample.M_PI ∧
      sample_enumumu ∈ make_signal_pdf_entries Collaborators.sample ∧
      (sample_enumumu.2.pdf_kinematic_ranges.get ⟨4, by decide⟩).name = "phi" ∧
      (sample_enumumu.2.pdf_kinematic_ranges.get ⟨4, by decide⟩).min ≤
        (sample_enumumu.2.pdf_kinematic_ranges.get ⟨4, by decide⟩).max := by
  have hpi : 0 ≤ Collaborators.sample.M_PI := by
    norm_num [Collaborators.sample]
  have hx : sample_enumumu ∈ make_signal_pdf_entries Collaborators.sample :=
    (entries_perm Collaborators.sample).mem_iff.mpr (List.get_mem _ _ _)
  exact ⟨hpi, hx, rfl,
    registered_ranges_ordered Collaborators.sample hpi sample_enumumu hx _
      (List.get_mem _ _ _)⟩

theorem registered_bounds_single :
    ∀ m ∈ registered_bounds, m.1 = "B->gammalnu::d^2Gamma/dEgamma/dcos(theta_l)" →
      m.2.2.length = 1 := by
  decide

/-- C14 as stated fails: the entry `B->gammalnu::d^2Gamma/dEgamma/dcos(theta_l)` of the
catalog declares the single bound name `E_gamma_min`, so not every entry declares paired
bounds. -/
theorem registered_bounds_not_all_paired :
    ¬ ∀ x ∈ make_signal_pdf_entries Collaborators.sample,
        paired_bounds (x.2.pdf_kinematic_ranges.map KinematicRange.name)
          x.2.norm_kinematic_names = true := by
  intro h
  have hx : sample_gammalnu ∈ make_signal_pdf_entries Collaborators.sample :=
    (entries_perm Collaborators.sample).mem_iff.mpr (List.get_mem _ _ _)
  have hfalse : paired_bounds
      (sample_gammalnu.2.pdf_kinematic_ranges.map KinematicRange.name)
      sample_gammalnu.2.norm_kinematic_names = false := rfl
  rw [h sample_gammalnu hx] at hfalse
  cases hfalse

/-- C14, amended: every entry of the catalog other than
`B->gammalnu::d^2Gamma/dEgamma/dcos(theta_l)` declares bound names that are consecutive
pairs `X_min`, `X_max`, where `X` is the name of a `KinematicRange` declared by the same
entry; the entry `B->gammalnu::d^2Gamma/dEgamma/dcos(theta_l)` declares one bound name
only. -/
theorem registered_bounds_pairing {α : Type} [Field α] (c : Collaborators α)
    (x : QualifiedName × SignalPDFEntry α) (hx : x ∈ make_signal_pdf_entries c) :
    (x.1.str ≠ "B->gammalnu::d^2Gamma/dEgamma/dcos(theta_l)" →
      paired_bounds (x.2.pdf_kinematic_ranges.map KinematicRange.name)
        x.2.norm_kinematic_names = true) ∧
    (x.1.str = "B->gammalnu::d^2Gamma/dEgamma/dcos(theta_l)" →
      x.2.norm_kinematic_names.length = 1) := by
  have hmem : (x.1.str, x.2.pdf_kinematic_ranges.map KinematicRange.name,
      x.2.norm_kinematic_names) ∈ registered_bounds := by
    rw [← registrations_bounds c]
    exact List.mem_map_of_mem
      (fun x : QualifiedName × SignalPDFEntry α =>
        (x.1.str, x.2.pdf_kinematic_ranges.map KinematicRange.name,
          x.2.norm_kinematic_names))
      ((entries_perm c).mem_iff.mp hx)
  exact ⟨registered_bounds_paired _ hmem, registered_bounds_single _ hmem⟩

/-- Witness of C14, amended: `B_u->enumumu::d^5Gamma` declares the pairs `q2_min`,
`q2_max` and `k2_min`, `k2_max` for its ranges `q2` and `k2`, and
`B->gammalnu::d^2Gamma/dEgamma/dcos(theta_l)` declares one bound name. -/
theorem registered_bounds_pairing_witness :
    sample_enumumu ∈ make_signal_pdf_entries Collaborators.sample ∧
      paired_bounds (sample_enumumu.2.pdf_kinematic_ranges.map KinematicRange.name)
        sample_enumumu.2.norm_kinematic_names = true ∧
      sample_gammalnu ∈ make_signal_pdf_entries Collaborators.sample ∧
      sample_gammalnu.2.norm_kinematic_names.length = 1 := by
  have hx : sample_enumumu ∈ make_signal_pdf_entries Collaborators.sample :=
    (entries_perm Collaborators.sample).mem_iff.mpr (List.get_mem _ _ _)
  have hg : sample_gammalnu ∈ make_signal_pdf_entries Collaborators.sample :=
    (entries_perm Collaborators.sample).mem_iff.mpr (List.get_mem _ _ _)
  exact ⟨hx,
    (registered_bounds_pairing Collaborators.sample sample_enumumu hx).1 (by decide),
    hg, (registered_bounds_pairing Collaborators.sample sample_gammalnu hg).2 rfl⟩

/-- C15 as stated fails at `z = 0`: `Legendre1DPDF::pdf(0) / Legendre1DPDF::norm(-1, 1)`
is `3/8`, while `(1/2 L_0(0) + 1/3 L_1(0) + 1/4 L_2(0)) / 2` is `3/16`. -/
theorem legendre_density_not_half_combination :
    test.Legendre1DPDF.pdf ⟨⟩ (0 : ℝ) / test.Legendre1DPDF.norm ⟨⟩ (-1 : ℝ) 1 ≠
      (1 / 2 * 1 + 1 / 3 * 0 + 1 / 4 * ((3 * 0 ^ 2 - 1) / 2)) / 2 := by
  unfold test.Legendre1DPDF.pdf test.Legendre1DPDF.norm power_of
  norm_num

/-- C15, amended: for every real `z`, `Legendre1DPDF::pdf(z) / Legendre1DPDF::norm(-1, 1)`
is `1/2 L_0(z) + 1/3 L_1(z) + 1/4 L_2(z)` with `L_0 = 1`, `L_1 = z` and
`L_2 = (3 z^2 - 1) / 2`. -/
theorem legendre_density_combination (z : ℝ) :
    test.Legendre1DPDF.pdf ⟨⟩ z / test.Legendre1DPDF.norm ⟨⟩ (-1 : ℝ) 1 =
      1 / 2 * 1 + 1 / 3 * z + 1 / 4 * ((3 * z ^ 2 - 1) / 2) := by
  unfold test.Legendre1DPDF.pdf test.Legendre1DPDF.norm power_of
  norm_num
  ring

theorem Parameters.used_forall₂ {α : Type} (p : Parameters α) (names : List String)
    (values : List α) (h : p.used names = .ok values) :
    List.Forall₂ (fun name a => p.get name = .ok a) names values := by
  induction names generalizing values with
  | nil =>
    unfold Parameters.used at h
    cases h
    exact List.Forall₂.nil
  | cons name names ih =>
    unfold Parameters.used at h
    cases hget : p.get name with
    | error e => rw [hget] at h; cases h
    | ok v =>
      rw [hget] at h
      cases hrest : p.used names with
      | error e => rw [hrest] at h; cases h
      | ok vs =>
        rw [hrest] at h
        cases h
        exact List.Forall₂.cons hget (ih vs hrest)

theorem foldl_add_squares {R : Type} [Field R] (l : List R) (init : R) :
    l.foldl (fun sum a => sum + a * a) init = init + (l.map (fun a => a ^ 2)).sum := by
  induction l generalizing init with
  | nil => simp
  | cons a as ih =>
    simp only [List.foldl_cons, List.map_cons, List.sum_cons]
    rw [ih]
    ring

/-- C16: `AEGJKvD2023UnitarityBounds::bound_1m_I1` returns the sum of the squares of the
coefficients `_a_fp_I1`, which the constructor fills with the values of the ten
parameters `a_(+,1)^0` to `a_(+,1)^9`; on the parameters of the unit test, where
`a_n = 2^-(n+1)`, the value is `(1 - 4^-10) / 3`, within `1e-7` of `0.3333330`. -/
theorem bound_1m_I1_sum_of_squares :
    (∀ bounds : AEGJKvD2023UnitarityBounds ℝ,
      bounds.bound_1m_I1 = (bounds._a_fp_I1.map (fun a => a ^ 2)).sum) ∧
    (∀ (p : Parameters ℝ) (o : Options) (bounds : AEGJKvD2023UnitarityBounds ℝ),
      AEGJKvD2023UnitarityBounds.new p o = .ok bounds →
      List.Forall₂ (fun name a => p.get name = .ok a) AEGJKvD2023.a_fp_I1_names
        bounds._a_fp_I1) ∧
    AEGJKvD2023.a_fp_I1_names =
      ["pi->pi::a_(+,1)^0@AEGJKvD2023", "pi->pi::a_(+,1)^1@AEGJKvD2023",
       "pi->pi::a_(+,1)^2@AEGJKvD2023", "pi->pi::a_(+,1)^3@AEGJKvD2023",
       "pi->pi::a_(+,1)^4@AEGJKvD2023", "pi->pi::a_(+,1)^5@AEGJKvD2023",
       "pi->pi::a_(+,1)^6@AEGJKvD2023", "pi->pi::a_(+,1)^7@AEGJKvD2023",
       "pi->pi::a_(+,1)^8@AEGJKvD2023", "pi->pi::a_(+,1)^9@AEGJKvD2023"] ∧
    ∃ bounds : AEGJKvD2023UnitarityBounds ℝ,
      AEGJKvD2023UnitarityBounds.new parametric_aegjkvd2023_test_parameters ⟨[]⟩ =
        .ok bounds ∧
      bounds._a_fp_I1 = (List.range 10).map (fun n => (2 : ℝ) ^ (-((n : ℤ) + 1))) ∧
      bounds.bound_1m_I1 = (1 - (4 : ℝ) ^ (-10 : ℤ)) / 3 ∧
      |bounds.bound_1m_I1 - 0.3333330| < 1e-7 := by
  have hsum : ∀ bounds : AEGJKvD2023UnitarityBounds ℝ,
      bounds.bound_1m_I1 = (bounds._a_fp_I1.map (fun a => a ^ 2)).sum := by
    intro bounds
    unfold AEGJKvD2023UnitarityBounds.bound_1m_I1
    rw [foldl_add_squares]
    norm_num
  refine ⟨hsum, ?_, by decide, ?_⟩
  · intro p o bounds h
    unfold AEGJKvD2023UnitarityBounds.new at h
    cases hused : p.used AEGJKvD2023.a_fp_I1_names with
    | error e => rw [hused] at h; cases h
    | ok a =>
      rw [hused] at h
      cases h
      exact Parameters.used_forall₂ p _ a hused
  · refine ⟨⟨[0.5, 0.25, 0.125, 0.0625, 0.03125, 0.015625, 7.8125e-3, 3.90625e-3,
      1.953125e-3, 9.765625e-4]⟩, rfl, ?_, ?_, ?_⟩
    · simp only [List.range, List.range.loop, List.map]
      norm_num
    · rw [hsum]
      simp only [List.map, List.sum_cons, List.sum_nil]
      norm_num
    · rw [hsum]
      simp only [List.map, List.sum_cons, List.sum_nil]
      norm_num [abs_lt]

/-- C19: the scalar form factor is zero for every `q2` and every instance:
`AEGJKvD2023FormFactors<PToP>::f_0(q2)` is `0` and
`AEGJKvD2023FormFactors<VacuumToPP>::f_0(q2)` is the complex number built from the real
part `0` and the imaginary part `0`, which is `0` in `ℂ`. -/
theorem f_0_vanishes (m : Maths ℝ ℂ) (p : AEGJKvD2023FormFactors.PToP ℝ)
    (v : AEGJKvD2023FormFactors.VacuumToPP ℝ) (q2 : ℝ) :
    p.f_0 q2 = 0 ∧ v.f_0 m q2 = m.complex 0 0 ∧
      v.f_0 (⟨m.M_PI, m.sqrt, m.pow, fun re im => ⟨re, im⟩, m.csqrt, m.cpow, m.szego,
        m.szego_complex⟩ : Maths ℝ ℂ) q2 = 0 := by
  refine ⟨?_, ?_, ?_⟩
  · unfold AEGJKvD2023FormFactors.PToP.f_0
    norm_num
  · unfold AEGJKvD2023FormFactors.VacuumToPP.f_0 Maths.real
    norm_num
  · unfold AEGJKvD2023FormFactors.VacuumToPP.f_0 Maths.real
    apply Complex.ext <;> norm_num

/-- C20: the tensor form factor is not implemented: for every `q2` and every instance,
`f_t(q2)` of `AEGJKvD2023FormFactors<PToP>` and of `AEGJKvD2023FormFactors<VacuumToPP>`
raises `InternalError("Not implemented!")` and returns no value. -/
theorem f_t_not_implemented (m : Maths ℝ ℂ) (p : AEGJKvD2023FormFactors.PToP ℝ)
    (v : AEGJKvD2023FormFactors.VacuumToPP ℝ) (q2 : ℝ) :
    p.f_t q2 = .error (.InternalError "Not implemented!") ∧
      v.f_t m q2 = .error (.InternalError "Not implemented!") ∧
      (∀ value : ℝ, p.f_t q2 ≠ .ok value) ∧ (∀ value : ℂ, v.f_t m q2 ≠ .ok value) := by
  refine ⟨rfl, rfl, ?_, ?_⟩
  · intro value h
    cases h
  · intro value h
    cases h

theorem Maths.Exact.real_eq {m : Maths ℝ ℂ} (hm : m.Exact) (x : ℝ) :
    m.real x = (x : ℂ) := by
  unfold Maths.real
  rw [hm.complex_eq]
  apply Complex.ext <;> norm_num

theorem Maths.Exact.csqrt_ofReal {m : Maths ℝ ℂ} (hm : m.Exact) (x : ℝ) (hx : 0 ≤ x) :
    m.csqrt (x : ℂ) = ((Real.sqrt x : ℝ) : ℂ) := by
  rw [hm.csqrt_eq, Real.sqrt_eq_rpow, Complex.ofReal_cpow hx]
  norm_num

/-- C17: with exact library functions, for every pion mass `m_pi > 0` and every
`t_0 < t_p = 4 m_pi^2`, the conformal variable at `q2 = t_0` is `0` for
`AEGJKvD2023FormFactors<PToP>::z` and has real and imaginary part `0` for
`AEGJKvD2023FormFactors<VacuumToPP>::z`; in both, the denominator of the quotient that
`_z` computes is not zero. -/
theorem z_vanishes_at_t_0 (m : Maths ℝ ℂ) (hm : m.Exact)
    (p : AEGJKvD2023FormFactors.PToP ℝ) (v : AEGJKvD2023FormFactors.VacuumToPP ℝ)
    (hp : 0 < p._m_pi) (hpt : p._t_0 < p._t_p)
    (hv : 0 < v._m_pi) (hvt : v._t_0 < v._t_p) :
    p.z m p._t_0 = 0 ∧
      ((v.z m v._t_0).re = 0 ∧ (v.z m v._t_0).im = 0) ∧
      (0 < p._t_p ∧ 0 < v._t_p) ∧
      m.sqrt (p._t_p - p._t_0) + m.sqrt (p._t_p - p._t_0) ≠ 0 ∧
      m.csqrt (m.complex v._t_p 0.0 - m.real v._t_0)
        + m.csqrt (m.complex v._t_p 0.0 - m.real v._t_0) ≠ 0 := by
  have hT : ∀ x : ℝ, m.complex x 0.0 = (x : ℂ) := hm.real_eq
  have hzv : v.z m v._t_0 = 0 := by
    unfold AEGJKvD2023FormFactors.VacuumToPP.z AEGJKvD2023FormFactors.VacuumToPP._z
    simp
  refine ⟨?_, ⟨by rw [hzv]; rfl, by rw [hzv]; rfl⟩, ⟨?_, ?_⟩, ?_, ?_⟩
  · unfold AEGJKvD2023FormFactors.PToP.z AEGJKvD2023FormFactors.PToP._z
    simp
  · unfold AEGJKvD2023FormFactors.PToP._t_p
    norm_num
    positivity
  · unfold AEGJKvD2023FormFactors.VacuumToPP._t_p
    norm_num
    positivity
  · rw [hm.sqrt_eq]
    have hpos : 0 < Real.sqrt (p._t_p - p._t_0) := Real.sqrt_pos.mpr (sub_pos.mpr hpt)
    exact ne_of_gt (add_pos hpos hpos)
  · rw [hT, hm.real_eq, ← Complex.ofReal_sub,
      hm.csqrt_ofReal _ (sub_nonneg.mpr (le_of_lt hvt)), ← Complex.ofReal_add]
    have hpos : 0 < Real.sqrt (v._t_p - v._t_0) := Real.sqrt_pos.mpr (sub_pos.mpr hvt)
    exact Complex.ofReal_ne_zero.mpr (ne_of_gt (add_pos hpos hpos))

theorem exact_szego_maths_exists : ∃ m : Maths ℝ ℂ, m.Exact ∧ m.Szego :=
  ⟨⟨Real.pi, Real.sqrt, fun x y => x ^ y, fun re im => ⟨re, im⟩,
      fun z => z ^ (1 / 2 : ℂ), fun z y => z ^ (y : ℂ),
      fun s x => SzegoPolynomial.evaluate id Real.sqrt s x,
      fun s z => SzegoPolynomial.evaluate (fun x => (⟨x, 0.0⟩ : ℂ)) Real.sqrt s z⟩,
    ⟨rfl, fun _ => rfl, fun _ _ => rfl, fun _ _ => rfl, fun _ => rfl, fun _ _ => rfl⟩,
    ⟨fun _ _ => rfl, fun _ _ => rfl⟩⟩

theorem exact_maths_exists : ∃ m : Maths ℝ ℂ, m.Exact :=
  exact_szego_maths_exists.imp (fun _ h => h.1)

/-- Witness of C17: the instances that the unit test builds, with `t_0 = 0` and
`m_pi = 0.13957`: `z(0.0)` is `0` in both classes. -/
theorem z_vanishes_at_t_0_witness :
    ∃ m : Maths ℝ ℂ, m.Exact ∧
      ∃ (p : AEGJKvD2023FormFactors.PToP ℝ) (v : AEGJKvD2023FormFactors.VacuumToPP ℝ),
        AEGJKvD2023FormFactors.PToP.new parametric_aegjkvd2023_test_parameters ⟨[]⟩ =
          .ok p ∧
        AEGJKvD2023FormFactors.VacuumToPP.new parametric_aegjkvd2023_test_parameters ⟨[]⟩ =
          .ok v ∧
        (0 < p._m_pi ∧ p._t_0 < p._t_p) ∧ (0 < v._m_pi ∧ v._t_0 < v._t_p) ∧
        p.z m 0.0 = 0 ∧ (v.z m 0.0).re = 0 ∧ (v.z m 0.0).im = 0 := by
  obtain ⟨m, hm⟩ := exact_maths_exists
  have hp : (0 : ℝ) < 0.13957 := by norm_num
  have ht : (0.0 : ℝ) < 4.0 * 0.13957 * 0.13957 := by norm_num
  have h := z_vanishes_at_t_0 m hm
    ⟨[0.5, 0.25, 0.125, 0.0625, 0.03125, 0.015625, 7.8125e-3, 3.90625e-3,
      1.953125e-3, 9.765625e-4], 0.13957, 0.0⟩
    ⟨[0.5, 0.25, 0.125, 0.0625, 0.03125, 0.015625, 7.8125e-3, 3.90625e-3,
      1.953125e-3, 9.765625e-4], 0.13957, 0.0⟩ hp ht hp ht
  exact ⟨m, hm, _, _, rfl, rfl, ⟨hp, ht⟩, ⟨hp, ht⟩, h.1, h.2.1.1, h.2.1.2⟩

theorem legendre_pdf_eq (z : ℝ) :
    test.Legendre1DPDF.pdf ⟨⟩ z = 9 + 8 * z + 9 * z ^ 2 := by
  unfold test.Legendre1DPDF.pdf
  norm_num
  ring

theorem legendre_norm_eq (a b : ℝ) :
    test.Legendre1DPDF.norm ⟨⟩ a b =
      (9 * b + 4 * b ^ 2 + 3 * b ^ 3) - (9 * a + 4 * a ^ 2 + 3 * a ^ 3) := by
  unfold test.Legendre1DPDF.norm power_of
  norm_num
  ring

theorem legendre_primitive_hasDerivAt (z : ℝ) :
    HasDerivAt (fun x : ℝ => 9 * x + 4 * x ^ 2 + 3 * x ^ 3)
      (test.Legendre1DPDF.pdf ⟨⟩ z) z := by
  have h1 : HasDerivAt (fun x : ℝ => 9 * x) 9 z := by
    simpa using (hasDerivAt_id z).const_mul (9 : ℝ)
  have h2 : HasDerivAt (fun x : ℝ => 4 * x ^ 2) (4 * (2 * z)) z := by
    simpa using ((hasDerivAt_id z).pow 2).const_mul (4 : ℝ)
  have h3 : HasDerivAt (fun x : ℝ => 3 * x ^ 3) (3 * (3 * z ^ 2)) z := by
    simpa using ((hasDerivAt_id z).pow 3).const_mul (3 : ℝ)
  have h := (h1.add h2).add h3
  have hval : test.Legendre1DPDF.pdf ⟨⟩ z = 9 + 4 * (2 * z) + 3 * (3 * z ^ 2) := by
    rw [legendre_pdf_eq]
    ring
  rw [hval]
  exact h

/-- C21: for all real `a` and `b`, `Legendre1DPDF::norm(a, b)` is the integral of
`Legendre1DPDF::pdf(z) dz` from `a` to `b`; it is `P(b) - P(a)` for
`P(z) = 9 z + 4 z^2 + 3 z^3`, whose derivative at every `z` is `pdf(z)`. -/
theorem legendre_norm_is_integral (a b : ℝ) :
    test.Legendre1DPDF.norm ⟨⟩ a b = ∫ z in a..b, test.Legendre1DPDF.pdf ⟨⟩ z ∧
      test.Legendre1DPDF.norm ⟨⟩ a b =
        (9 * b + 4 * b ^ 2 + 3 * b ^ 3) - (9 * a + 4 * a ^ 2 + 3 * a ^ 3) ∧
      ∀ z : ℝ, HasDerivAt (fun x : ℝ => 9 * x + 4 * x ^ 2 + 3 * x ^ 3)
        (test.Legendre1DPDF.pdf ⟨⟩ z) z := by
  refine ⟨?_, legendre_norm_eq a b, legendre_primitive_hasDerivAt⟩
  have hcont : Continuous (fun z : ℝ => test.Legendre1DPDF.pdf ⟨⟩ z) := by
    have hfun : (fun z : ℝ => test.Legendre1DPDF.pdf ⟨⟩ z) =
        fun z => 9 + 8 * z + 9 * z ^ 2 := funext legendre_pdf_eq
    rw [hfun]
    continuity
  rw [intervalIntegral.integral_eq_sub_of_hasDerivAt
    (fun z _ => legendre_primitive_hasDerivAt z) (hcont.intervalIntegrable a b)]
  exact legendre_norm_eq a b

/-- C22: `Legendre1DPDF::pdf(z)` is positive for every real `z`, and
`Legendre1DPDF::norm(a, b)` is positive, hence not zero, for all real `a < b`: the
division `pdf / norm` has a divisor that is not zero on a range that is not
degenerate. -/
theorem legendre_density_valid (z a b : ℝ) (hab : a < b) :
    0 < test.Legendre1DPDF.pdf ⟨⟩ z ∧ 0 < test.Legendre1DPDF.norm ⟨⟩ a b ∧
      test.Legendre1DPDF.norm ⟨⟩ a b ≠ 0 := by
  have hpdf : 0 < test.Legendre1DPDF.pdf ⟨⟩ z := by
    rw [legendre_pdf_eq]
    nlinarith [sq_nonneg (9 * z + 4)]
  have hnorm : 0 < test.Legendre1DPDF.norm ⟨⟩ a b := by
    rw [legendre_norm_eq]
    have hfactor : (9 * b + 4 * b ^ 2 + 3 * b ^ 3) - (9 * a + 4 * a ^ 2 + 3 * a ^ 3) =
        (b - a) * (9 + 4 * (a + b) + 3 * (a ^ 2 + a * b + b ^ 2)) := by ring
    rw [hfactor]
    apply mul_pos (sub_pos.mpr hab)
    nlinarith [sq_nonneg (a + b), sq_nonneg (a - b), sq_nonneg (3 * (a + b) + 2),
      sq_nonneg (a + b + 1)]
  exact ⟨hpdf, hnorm, ne_of_gt hnorm⟩

/-- Witness of C22: the range `[-1, 1]` and the point `z = 0`; `pdf(0)` and
`norm(-1, 1)` are positive. -/
theorem legendre_density_valid_witness :
    (-1 : ℝ) < 1 ∧ 0 < test.Legendre1DPDF.pdf ⟨⟩ (0 : ℝ) ∧
      0 < test.Legendre1DPDF.norm ⟨⟩ (-1 : ℝ) 1 ∧
      test.Legendre1DPDF.norm ⟨⟩ (-1 : ℝ) 1 ≠ 0 :=
  ⟨by norm_num, legendre_density_valid 0 (-1) 1 (by norm_num)⟩

end eos
